import Mathlib

/-!
The JOS kernel monitor: a shallow embedding of `kern/monitor.c`, with its commands
`mon_help`, `mon_kerninfo`, `mon_backtrace` and `mon_showmappings`, the interpreter `runcmd`
and the read loop of `monitor`.

* Console output is kept as the sequence of `cprintf` calls the code makes, each with its
  format string and its arguments; queries of the page-table walker are recorded in the same
  sequence, so that their number, order and arguments can be stated.
* The machine is the 32-bit x86 the kernel runs on: `long`, `int`, pointers and `uint32_t` are
  32 bits wide.  A `long` is an `Int` kept in `[-2^31, 2^31)` by `toLong`; an unsigned word is a
  `Nat` kept below `2^32`.
* Loops that the C code does not bound are given a fuel argument and return `none` when the
  fuel runs out; the theorems state how much fuel gives a result.
-/

/-! ## Machine words -/

/-- Value of a mathematical integer stored in a 32-bit two's complement `long`. -/
def toLong (x : Int) : Int := (x + 2147483648) % 4294967296 - 2147483648

/-- The 32-bit pattern of an integer, read as an unsigned word (`(uint32_t) x`). -/
def toU32 (x : Int) : Nat := (x % 4294967296).toNat

/-! ## Console and walker events -/

/-- One variadic argument of a `cprintf` call: a 32-bit word as it is pushed on the stack, or
the characters a `char *` argument points to. -/
inductive Arg where
  | word (w : Nat)
  | str (s : String)
  deriving DecidableEq, Repr

/-- What the monitor commands do that is visible outside them: a call of `cprintf` with its
format and arguments, or a call `pgdir_walk(kern_pgdir, va, create)`. -/
inductive Event where
  | cprintf (fmt : String) (args : List Arg)
  | pgdir_walk (va : Nat) (create : Nat)
  deriving DecidableEq, Repr

/-- Modelled from the spec: the trap frame type of `kern/trap.h`, which is not among the
sources; of the saved registers only the frame pointer is kept. -/
structure Trapframe where
  reg_ebp : Nat
  deriving DecidableEq, Repr

/-! ## Constants and macros of `inc/mmu.h` and `inc/types.h` -/

/-- Modelled from the spec: the page size (`inc/mmu.h` is not among the sources); the spec's
scenarios use pages of `0x1000` bytes. -/
def PGSIZE : Nat := 4096

/-- Modelled from the spec: the Present bit of a translation entry (`inc/mmu.h` is not among
the sources); bit 0 on x86. -/
def PTE_P : Nat := 1

/-- Modelled from the spec: the Writable bit of a translation entry (`inc/mmu.h` is not among
the sources); bit 1 on x86. -/
def PTE_W : Nat := 2

/-- Modelled from the spec: the User bit of a translation entry (`inc/mmu.h` is not among the
sources); bit 2 on x86. -/
def PTE_U : Nat := 4

/-- Modelled from the spec: `PTE_ADDR(pte)` of `inc/mmu.h` (not among the sources), the
physical frame address of an entry: `pte & ~0xFFF` on 32 bits. -/
def PTE_ADDR (pte : Nat) : Nat := pte &&& 0xFFFFF000

/-- Modelled from the spec: `ROUNDDOWN(a, n)` of `inc/types.h` (not among the sources) on an
unsigned 32-bit word: `a - a % n`. -/
def ROUNDDOWN (a n : Nat) : Nat := a - a % n

/-- Modelled from the spec: `ROUNDUP(a, n)` of `inc/types.h` (not among the sources) on a
`long`: the operand is cast to `uint32_t`, `n - 1` is added with 32-bit wrap-around, the sum is
rounded down to a multiple of `n`, and the result is cast back to `long`. -/
def ROUNDUP (a : Int) (n : Nat) : Int :=
  toLong (ROUNDDOWN ((toU32 a + n - 1) % 4294967296) n)

/-! ## `strtol` -/

/-- Modelled from the spec: part of `strtol` of `lib/string.c` (not among the sources): the
value of a character as a digit (`0-9`, `a-z`, `A-Z`), if it is one. -/
def digitVal (c : Char) : Option Nat :=
  if 48 ≤ c.toNat ∧ c.toNat ≤ 57 then some (c.toNat - 48)
  else if 97 ≤ c.toNat ∧ c.toNat ≤ 122 then some (c.toNat - 97 + 10)
  else if 65 ≤ c.toNat ∧ c.toNat ≤ 90 then some (c.toNat - 65 + 10)
  else none

/-- Modelled from the spec: part of `strtol` of `lib/string.c` (not among the sources): the
value of the longest run of digits valid in `base`. -/
def strtolDigits (base : Nat) : List Char → Nat → Nat
  | [], val => val
  | c :: cs, val =>
    match digitVal c with
    | some d => if base ≤ d then val else strtolDigits base cs (val * base + d)
    | none => val

/-- Modelled from the spec: `strtol(s, NULL, 0)` of `lib/string.c`, which is not among the
sources: base-prefix-aware integer parsing (`0x` announces hexadecimal, otherwise decimal);
text that does not parse yields 0. -/
def strtol (s : String) : Int :=
  match s.toList with
  | '0' :: 'x' :: cs => (strtolDigits 16 cs 0 : Nat)
  | cs => (strtolDigits 10 cs 0 : Nat)

/-! ## `mon_showmappings` -/

/-- Body of the `for` loop of `mon_showmappings` (lines 102-110) for one value of `begin`:
the range is printed, the walker is queried without creating tables, then either
`not mapped` or the frame address and the three permission bits are printed. -/
def pageLine (pgdir_walk : Nat → Nat → Option Nat) (begin : Int) : List Event :=
  [Event.cprintf "%08x--%08x: " [Arg.word (toU32 begin), Arg.word (toU32 (begin + PGSIZE))],
   Event.pgdir_walk (toU32 begin) 0] ++
  match pgdir_walk (toU32 begin) 0 with
  | none => [Event.cprintf "not mapped\n" []]
  | some e =>
    let pte := e % 4294967296
    [Event.cprintf "page %08x " [Arg.word (PTE_ADDR pte)],
     Event.cprintf "PTE_P: %x, PTE_W: %x, PTE_U: %x\n"
       [Arg.word (pte &&& PTE_P), Arg.word (pte &&& PTE_W), Arg.word (pte &&& PTE_U)]]

/-- The loop `for (; begin < end; begin += PGSIZE)` of `mon_showmappings` (line 101); the
comparison is the signed comparison of two `long`s and the increment wraps at 32 bits. -/
def showLoop (pgdir_walk : Nat → Nat → Option Nat) : Nat → Int → Int → Option (List Event)
  | 0, _, _ => none
  | fuel + 1, begin, end_ =>
    if begin < end_ then
      (showLoop pgdir_walk fuel (toLong (begin + PGSIZE)) end_).map
        (fun rest => pageLine pgdir_walk begin ++ rest)
    else some []

/-- Lines 97-112 of `mon_showmappings`: the range check and the walk, on the bounds that are
in `begin` and `end` at that point. -/
def showRange (pgdir_walk : Nat → Nat → Option Nat) (fuel : Nat) (begin end_ : Int) :
    Option (List Event × Int) :=
  if end_ ≤ begin then
    some ([Event.cprintf "Error: end_addr must larger than begin_addr\n" []], 0)
  else
    (showLoop pgdir_walk fuel begin end_).map (fun out => (out, 0))

/-- Lines 91-96 of `mon_showmappings`, the alignment step: whether the warning is printed, and
the values of `begin` and `end` afterwards. -/
def alignBounds (begin end_ : Int) : Bool × Int × Int :=
  if begin ≠ ROUNDUP begin PGSIZE ∨ end_ ≠ ROUNDUP end_ PGSIZE then
    (true, ROUNDUP begin PGSIZE, ROUNDUP end_ PGSIZE)
  else (false, begin, end_)

/-- The `cprintf` of line 93, when it is executed. -/
def warningOut (warned : Bool) : List Event :=
  if warned then
    [Event.cprintf "Warning: not aligned\n the address will aligned automaticly\n" []]
  else []

/-- The command `showmappings` (lines 78-113).  `strtol s` stands for `strtol(s, NULL, 0)` and
`pgdir_walk va create` for `pgdir_walk(kern_pgdir, va, create)`, with `none` for a null
result and `some e` for a pointer to an entry of value `e`.  The result is the sequence of
events and the returned status. -/
def mon_showmappings (strtol : String → Int) (pgdir_walk : Nat → Nat → Option Nat)
    (fuel : Nat) (argc : Int) (argv : List String) (_tf : Option Trapframe) :
    Option (List Event × Int) :=
  if argc ≠ 3 then
    some ([Event.cprintf "Usage: showmappings begin_addr end_addr\n" []], 0)
  else
    let begin := toLong (strtol (argv.getD 1 ""))
    let end_ := toLong (strtol (argv.getD 2 ""))
    let a := alignBounds begin end_
    (showRange pgdir_walk fuel a.2.1 a.2.2).map (fun r => (warningOut a.1 ++ r.1, r.2))

/-! ## `mon_backtrace` -/

/-- Modelled from the spec: the record `struct Eipdebuginfo` of `kern/kdebug.h` (not among the
sources) that `debuginfo_eip` fills in, with the fields `mon_backtrace` prints. -/
structure Eipdebuginfo where
  eip_file : String
  eip_line : Int
  eip_fn_name : String
  eip_fn_namelen : Int
  eip_fn_addr : Nat
  deriving DecidableEq, Repr

/-- The little-endian 32-bit word at byte address `a` of a byte-addressed memory. -/
def read32 (mem : Nat → Nat) (a : Nat) : Nat :=
  mem (a % 4294967296) % 256
    + 256 * (mem ((a + 1) % 4294967296) % 256)
    + 65536 * (mem ((a + 2) % 4294967296) % 256)
    + 16777216 * (mem ((a + 3) % 4294967296) % 256)

/-- The word `ebp[i]` for a `uint32_t *ebp`. -/
def ebpIdx (mem : Nat → Nat) (ebp i : Nat) : Nat := read32 mem (ebp + 4 * i)

/-- Body of the `for` loop of `mon_backtrace` (lines 66-73) for one frame pointer. -/
def frameLines (debuginfo_eip : Nat → Eipdebuginfo) (mem : Nat → Nat) (ebp : Nat) :
    List Event :=
  let eip := ebpIdx mem ebp 1
  let info := debuginfo_eip eip
  [Event.cprintf "ebp %x eip %x args" [Arg.word ebp, Arg.word eip]] ++
  (List.range' 2 5).map (fun i => Event.cprintf " %08.x" [Arg.word (ebpIdx mem ebp i)]) ++
  [Event.cprintf "\n" [],
   Event.cprintf " %s:%d: %.*s+%d\n"
     [Arg.str info.eip_file, Arg.word (toU32 info.eip_line),
      Arg.word (toU32 info.eip_fn_namelen), Arg.str info.eip_fn_name,
      Arg.word ((eip + 4294967296 - info.eip_fn_addr % 4294967296) % 4294967296)]]

/-- The loop `for (ebp = read_ebp(); ebp; ebp = (uint32_t*) *ebp)` of `mon_backtrace`
(line 65), from the frame pointer `ebp` on. -/
def backtraceLoop (debuginfo_eip : Nat → Eipdebuginfo) (mem : Nat → Nat) :
    Nat → Nat → Option (List Event)
  | 0, _ => none
  | fuel + 1, ebp =>
    if ebp = 0 then some []
    else
      (backtraceLoop debuginfo_eip mem fuel (read32 mem ebp)).map
        (fun rest => frameLines debuginfo_eip mem ebp ++ rest)

/-- The command `backtrace` (lines 60-76).  `read_ebp` is the value of the register `ebp`
inside `mon_backtrace`, `mem` the memory it reads, `debuginfo_eip eip` the record the resolver
fills in for `eip`.  The arguments and the trap frame are not used by the code. -/
def mon_backtrace (debuginfo_eip : Nat → Eipdebuginfo) (mem : Nat → Nat) (read_ebp : Nat)
    (fuel : Nat) (_argc : Int) (_argv : List String) (_tf : Option Trapframe) :
    Option (List Event × Int) :=
  (backtraceLoop debuginfo_eip mem fuel read_ebp).map
    (fun out => (Event.cprintf "Stack backtrace;\n" [] :: out, 0))



/-! ## The other commands and the interpreter -/

/-- What the monitor takes from the rest of the kernel: the parser `strtol(s, NULL, 0)`, the
page-table walker on `kern_pgdir`, the debug-info resolver, the memory, the value of `ebp`
inside `mon_backtrace`, and the linker symbols and `KERNBASE` that `mon_kerninfo` prints. -/
structure Kernel where
  strtol : String → Int
  pgdir_walk : Nat → Nat → Option Nat
  debuginfo_eip : Nat → Eipdebuginfo
  mem : Nat → Nat
  read_ebp : Nat
  sym_start : Nat
  sym_entry : Nat
  sym_etext : Nat
  sym_edata : Nat
  sym_end : Nat
  KERNBASE : Nat

/-- Names and descriptions of the table `commands` (lines 25-30), in the order of the table. -/
def commandNames : List (String × String) :=
  [("help", "Display this list of commands"),
   ("kerninfo", "Display information about the kernel"),
   ("backtrace", "Display a listing of function call frames"),
   ("showmappings", "Display the memory mapping")]

/-- The command `help` (lines 34-42): one line per entry of the table. -/
def mon_help (_argc : Int) (_argv : List String) (_tf : Option Trapframe) :
    Option (List Event × Int) :=
  some (commandNames.map (fun c => Event.cprintf "%s - %s\n" [Arg.str c.1, Arg.str c.2]), 0)

/-- The command `kerninfo` (lines 44-58); pointer differences are taken on 32 bits and the
footprint is `ROUNDUP(end - entry, 1024) / 1024` on an `int`. -/
def mon_kerninfo (K : Kernel) (_argc : Int) (_argv : List String) (_tf : Option Trapframe) :
    Option (List Event × Int) :=
  let phys := fun (a : Nat) => toU32 ((a : Int) - K.KERNBASE)
  some ([Event.cprintf "Special kernel symbols:\n" [],
         Event.cprintf "  _start                  %08x (phys)\n" [Arg.word K.sym_start],
         Event.cprintf "  entry  %08x (virt)  %08x (phys)\n"
           [Arg.word K.sym_entry, Arg.word (phys K.sym_entry)],
         Event.cprintf "  etext  %08x (virt)  %08x (phys)\n"
           [Arg.word K.sym_etext, Arg.word (phys K.sym_etext)],
         Event.cprintf "  edata  %08x (virt)  %08x (phys)\n"
           [Arg.word K.sym_edata, Arg.word (phys K.sym_edata)],
         Event.cprintf "  end    %08x (virt)  %08x (phys)\n"
           [Arg.word K.sym_end, Arg.word (phys K.sym_end)],
         Event.cprintf "Kernel executable memory footprint: %dKB\n"
           [Arg.word (toU32
             (Int.tdiv (ROUNDUP (toLong ((K.sym_end : Int) - K.sym_entry)) 1024) 1024))]], 0)

/-- One entry of the table `commands`: `struct Command` (lines 18-23). -/
structure Command where
  name : String
  desc : String
  func : Kernel → Nat → Int → List String → Option Trapframe → Option (List Event × Int)

/-- The table `commands` (lines 25-30). -/
def commands : List Command :=
  [⟨"help", "Display this list of commands", fun _ _ => mon_help⟩,
   ⟨"kerninfo", "Display information about the kernel", fun K _ => mon_kerninfo K⟩,
   ⟨"backtrace", "Display a listing of function call frames",
      fun K fuel => mon_backtrace K.debuginfo_eip K.mem K.read_ebp fuel⟩,
   ⟨"showmappings", "Display the memory mapping",
      fun K fuel => mon_showmappings K.strtol K.pgdir_walk fuel⟩]

/-- The size of the array `argv` of `runcmd` (line 118). -/
def MAXARGS : Nat := 16

/-- The characters of `WHITESPACE` (line 117): tab, carriage return, line feed, space. -/
def isWhitespace (c : Char) : Bool :=
  c = '\t' || c = '\r' || c = '\n' || c = ' '

/-- The argument parser of `runcmd` (lines 128-146), one character of the buffer at a time.
The second argument is `none` while the code gobbles whitespace (line 132) and `some tok` while
it scans past an argument (line 143), `tok` being the characters of that argument passed so
far; the third is `argv[0 .. argc-1]`.  A NUL character ends the buffer.  The result is `none`
on the early return of lines 138-141 (too many arguments). -/
def runcmdScan : List Char → Option (List Char) → List String → Option (List String)
  | [], none, argv => some argv
  | [], some tok, argv => some (argv ++ [String.mk tok])
  | c :: cs, none, argv =>
    if c = '\x00' then some argv
    else if isWhitespace c then runcmdScan cs none argv
    else if argv.length = MAXARGS - 1 then none
    else runcmdScan cs (some [c]) argv
  | c :: cs, some tok, argv =>
    if c = '\x00' then some (argv ++ [String.mk tok])
    else if isWhitespace c then runcmdScan cs none (argv ++ [String.mk tok])
    else runcmdScan cs (some (tok ++ [c])) argv

/-- The interpreter `runcmd` (lines 120-157) on the buffer `buf`: the arguments are parsed,
then the first command of the table whose name is `argv[0]` is called with `argc` and `argv`. -/
def runcmd (K : Kernel) (fuel : Nat) (buf : List Char) (tf : Option Trapframe) :
    Option (List Event × Int) :=
  match runcmdScan buf none [] with
  | none => some ([Event.cprintf "Too many arguments (max %d)\n" [Arg.word MAXARGS]], 0)
  | some argv =>
    if argv.length = 0 then some ([], 0)
    else
      match commands.find? (fun c => decide (c.name = argv.getD 0 "")) with
      | some c => c.func K fuel argv.length argv tf
      | none => some ([Event.cprintf "Unknown command '%s'\n" [Arg.str (argv.getD 0 "")]], 0)

/-- The read loop of `monitor` (lines 170-175) on the successive results of `readline` (`none`
for a null result).  The result is `none` when a command runs out of fuel; otherwise it is the
output together with `true` when the loop was left by the `break` of line 174 and `false` when
every line was consumed and the loop goes on reading. -/
def monitorLoop (K : Kernel) (fuel : Nat) (tf : Option Trapframe) :
    List (Option (List Char)) → Option (List Event × Bool)
  | [] => some ([], false)
  | none :: rest => monitorLoop K fuel tf rest
  | some buf :: rest =>
    match runcmd K fuel buf tf with
    | none => none
    | some (out, status) =>
      if status < 0 then some (out, true)
      else (monitorLoop K fuel tf rest).map (fun r => (out ++ r.1, r.2))

/-- The function `monitor` (lines 159-176): the two banner lines, the trap frame printed by
`print_trapframe` (not among the sources; `print_trapframe tf` is what it prints) when there is
one, then the read loop. -/
def monitor (K : Kernel) (print_trapframe : Trapframe → List Event) (fuel : Nat)
    (tf : Option Trapframe) (lines : List (Option (List Char))) : Option (List Event × Bool) :=
  (monitorLoop K fuel tf lines).map (fun r =>
    ([Event.cprintf
        "\x1b[0;31;40mWelcome \x1b[0;32;40mto \x1b[0;33;40mthe \x1b[0;34;40mJOS \x1b[0;35;40mkernel \x1b[0;36;40mmonitor!\x1b[0m\n"
        [],
      Event.cprintf "Type 'help' for a list of commands.\n" []] ++
     (match tf with
      | some t => print_trapframe t
      | none => []) ++ r.1, r.2))

/-! ## Formatted output -/

/-- Modelled from the spec: part of `vprintfmt` of `lib/printfmt.c` (not among the sources):
the state of a conversion being read: the padding character, the width and the precision
(`-1` when not given), and the digits of a number read so far. -/
structure FmtState where
  padc : Char
  width : Int
  precision : Int
  num : Option Nat

/-- Modelled from the spec: part of `printnum` of `lib/printfmt.c` (not among the sources):
the digit of `n` in `"0123456789abcdef"`. -/
def hexDigit (n : Nat) : Char :=
  "0123456789abcdef".toList.getD n '?'

/-- Modelled from the spec: `printnum` of `lib/printfmt.c` (not among the sources): the number
in the given base, most significant digit first, preceded by the padding character up to the
field width. -/
def printnum : Nat → Nat → Nat → Int → Char → List Char
  | 0, _, _, _, _ => []
  | fuel + 1, num, base, width, padc =>
    if base ≤ num then
      printnum fuel (num / base) base (width - 1) padc ++ [hexDigit (num % base)]
    else
      List.replicate (width - 1).toNat padc ++ [hexDigit (num % base)]

/-- Modelled from the spec: part of `vprintfmt` of `lib/printfmt.c` (not among the sources):
a number read when no width is set yet is the width, otherwise it is the precision. -/
def processPrecision (st : FmtState) (n : Int) : FmtState :=
  if st.width < 0 then ⟨st.padc, n, -1, none⟩ else ⟨st.padc, st.width, n, none⟩

/-- Modelled from the spec: the formatting of `cprintf` (`vprintfmt` of `lib/printfmt.c`, not
among the sources) for the conversions the monitor uses: the flag `0`, a decimal width, `.`,
`*`, and the conversions `%x`, `%d`, `%s`, `%%`, with their printf meaning: `%x` prints the
hexadecimal digits of a word without padding, a width pads on the left with the padding
character, `%d` prints a signed decimal, `%s` a string cut at the precision when there is one.
The second argument is `none` in plain text and `some st` inside a conversion.  The result is
`none` for a conversion outside that set or an argument of the wrong kind. -/
def vprintfmt : List Char → Option FmtState → List Arg → Option (List Char)
  | [], _, _ => some []
  | c :: cs, none, args =>
    if c = '%' then vprintfmt cs (some ⟨' ', -1, -1, none⟩) args
    else (vprintfmt cs none args).map (fun r => c :: r)
  | c :: cs, some st0, args =>
    if st0.num.isSome ∧ c.isDigit then
      vprintfmt cs (some ⟨st0.padc, st0.width, st0.precision,
        some (st0.num.getD 0 * 10 + (c.toNat - 48))⟩) args
    else
      let st := match st0.num with
        | some n => processPrecision st0 n
        | none => st0
      if c = '0' then vprintfmt cs (some ⟨'0', st.width, st.precision, none⟩) args
      else if c.isDigit then vprintfmt cs (some ⟨st.padc, st.width, st.precision,
        some (c.toNat - 48)⟩) args
      else if c = '.' then
        vprintfmt cs (some ⟨st.padc, if st.width < 0 then 0 else st.width, st.precision, none⟩)
          args
      else if c = '*' then
        match args with
        | Arg.word w :: rest => vprintfmt cs (some (processPrecision st (toLong w))) rest
        | _ => none
      else if c = '%' then (vprintfmt cs none args).map (fun r => '%' :: r)
      else if c = 'x' then
        match args with
        | Arg.word w :: rest =>
          (vprintfmt cs none rest).map (fun r => printnum 64 w 16 st.width st.padc ++ r)
        | _ => none
      else if c = 'd' then
        match args with
        | Arg.word w :: rest =>
          (vprintfmt cs none rest).map (fun r =>
            (if toLong w < 0 then '-' :: printnum 64 (toLong w).natAbs 10 st.width st.padc
             else printnum 64 w 10 st.width st.padc) ++ r)
        | _ => none
      else if c = 's' then
        match args with
        | Arg.str s :: rest =>
          if 0 < st.width then none
          else
            (vprintfmt cs none rest).map (fun r =>
              (if st.precision < 0 then s.toList else s.toList.take st.precision.toNat) ++ r)
        | _ => none
      else none

/-- The text one event puts on the console: the formatted text of a `cprintf`, nothing for a
query of the walker. -/
def renderEvent : Event → Option (List Char)
  | Event.cprintf fmt args => vprintfmt fmt.toList none args
  | Event.pgdir_walk _ _ => some []

/-- The text a sequence of events puts on the console. -/
def render : List Event → Option (List Char)
  | [] => some []
  | ev :: rest =>
    match renderEvent ev, render rest with
    | some a, some b => some (a ++ b)
    | _, _ => none

/-! ## Memory reads of `mon_backtrace` -/

/-- The addresses of the words one iteration of the loop of `mon_backtrace` reads through the
frame pointer `ebp`, in the order of the code: `ebp[1]` (line 66), `ebp[2]` to `ebp[6]`
(line 71), then `*ebp` when the loop advances (line 65). -/
def frameReads (ebp : Nat) : List Nat :=
  (List.range' 1 6).map (fun i => (ebp + 4 * i) % 4294967296) ++ [ebp % 4294967296]

/-- The addresses of the words the loop of `mon_backtrace` reads, from the frame pointer `ebp`
on: the loop of `backtraceLoop`, recording the reads instead of the output. -/
def backtraceReads (mem : Nat → Nat) : Nat → Nat → Option (List Nat)
  | 0, _ => none
  | fuel + 1, ebp =>
    if ebp = 0 then some []
    else (backtraceReads mem fuel (read32 mem ebp)).map (fun rest => frameReads ebp ++ rest)

/-! ## Vocabulary of the statements -/

/-- Number of pages of the range `[begin, end_)`. -/
def pageCount (begin end_ : Int) : Nat := ((end_ - begin) / PGSIZE).toNat

/-- What the walk prints for `n` consecutive pages from `begin` on. -/
def pagesOut (pgdir_walk : Nat → Nat → Option Nat) (begin : Int) (n : Nat) : List Event :=
  (List.range n).flatMap (fun i => pageLine pgdir_walk (begin + i * PGSIZE))

/-- The alignment step applied to the two parsed arguments (lines 89-96): whether the warning
is printed, and the values of `begin` and `end` that the range check and the walk see. -/
def boundsOf (parse : String → Int) (argv : List String) : Bool × Int × Int :=
  alignBounds (toLong (parse (argv.getD 1 ""))) (toLong (parse (argv.getD 2 "")))

/-- The event opens a page report line (the `cprintf` of line 102). -/
def isPageLine : Event → Bool
  | Event.cprintf fmt _ => decide (fmt = "%08x--%08x: ")
  | _ => false

/-- The event is a query of the page-table walker. -/
def isWalk : Event → Bool
  | Event.pgdir_walk _ _ => true
  | _ => false

/-- The event opens a frame info line of the backtrace (the `cprintf` of line 67). -/
def isFrameLine : Event → Bool
  | Event.cprintf fmt _ => decide (fmt = "ebp %x eip %x args")
  | _ => false

/-- The memory holds the frame-pointer chain `fps` from `start` on: every pointer of the chain
is non-null, the word at each one is the next one, and the word at the last one is null. -/
def FrameChain (mem : Nat → Nat) : Nat → List Nat → Prop
  | start, [] => start = 0
  | start, fp :: rest => start = fp ∧ fp ≠ 0 ∧ FrameChain mem (read32 mem fp) rest

/-- A memory with a chain of three frames at `0x100`, `0x200` and `0x300`: the word at `0x100`
is `0x200`, the word at `0x200` is `0x300`, every other byte is zero, with one exception, the
return address `0x5` of the first frame. -/
def chainMem : Nat → Nat := fun a =>
  if a = 0x101 then 2 else if a = 0x201 then 3 else if a = 0x104 then 5 else 0

/-- A resolver without debug information: placeholder names, and the address itself as the
entry address of the function. -/
def noDebugInfo : Nat → Eipdebuginfo := fun eip => ⟨"<unknown>", 0, "<unknown>", 9, eip⟩

/-- A walker for the scenario of one mapped page: `0x1000` has the entry `0x5003` (frame
`0x5000`, present and writable, not user), no other page has an entry. -/
def oneMapped : Nat → Nat → Option Nat := fun va _ => if va = 0x1000 then some 0x5003 else none

/-- A walker that finds, for every page, an entry whose Present bit is clear (a page table
exists, the entry in it is empty). -/
def emptyEntries : Nat → Nat → Option Nat := fun _ _ => some 0

/-- The maximal runs of non-whitespace characters of a line, from left to right: the line is
split at every whitespace character and the empty pieces are dropped. -/
def wordsOf (line : List Char) : List String :=
  ((List.splitOnP isWhitespace line).filter (fun t => !t.isEmpty)).map String.mk

/-- The translation structures after a sequence of events, for a walker whose call
`pgdir_walk(kern_pgdir, va, create)` turns the structures `pt` into `effect pt va create`: the
commands touch them through the walker only. -/
def ptAfter {PT : Type} (effect : PT → Nat → Nat → PT) (pt : PT) : List Event → PT
  | [] => pt
  | Event.pgdir_walk va create :: rest => ptAfter effect (effect pt va create) rest
  | Event.cprintf _ _ :: rest => ptAfter effect pt rest

/-- A memory whose frame-pointer chain is a cycle: the word at `0x100` is `0x100`. -/
def cyclicMem : Nat → Nat := fun a => if a = 0x101 then 1 else 0

/-- A memory with a two-frame chain through a misaligned frame pointer: the word at `0x100` is
`0x202`, the word at `0x202` is 0, and the word at `0x206`, one word past `0x202`, is 7. -/
def misalignedMem : Nat → Nat := fun a =>
  if a = 0x100 then 2 else if a = 0x101 then 2 else if a = 0x206 then 7 else 0

/-- A memory of zero bytes: every frame pointer is the last of its chain. -/
def zeroMem : Nat → Nat := fun _ => 0

/-- A kernel for the examples: the modelled parser, one mapped page, no debug information,
the three-frame stack of `chainMem` walked from `0x100`, and symbols of a small kernel. -/
def exampleKernel : Kernel :=
  ⟨strtol, oneMapped, noDebugInfo, chainMem, 0x100,
   0x10000c, 0xf010000c, 0xf0101a75, 0xf0112300, 0xf0112960, 0xf0000000⟩

/-- The `m` low hexadecimal digits of `v`, most significant first. -/
def hexFixed : Nat → Nat → List Char
  | 0, _ => []
  | m + 1, v => hexFixed m (v / 16) ++ [hexDigit (v % 16)]

/-! ## Auxiliary facts -/

theorem toLong_of_fits (x : Int) (h1 : -2147483648 ≤ x) (h2 : x < 2147483648) :
    toLong x = x := by
  unfold toLong; omega

theorem toLong_fits (x : Int) : -2147483648 ≤ toLong x ∧ toLong x < 2147483648 := by
  unfold toLong; omega

theorem pagesOut_succ (w : Nat → Nat → Option Nat) (b : Int) (n : Nat) :
    pagesOut w b (n + 1) = pageLine w b ++ pagesOut w (b + PGSIZE) n := by
  unfold pagesOut
  rw [List.range_succ_eq_map, List.flatMap_cons, List.flatMap_map]
  have h0 : b + ((0 : Nat) : Int) * (PGSIZE : Int) = b := by simp
  rw [h0]
  congr 1
  apply List.flatMap_congr
  intro i _
  have hi : b + ((i.succ : Nat) : Int) * (PGSIZE : Int) = b + PGSIZE + i * PGSIZE := by
    push_cast
    ring
  rw [hi]

theorem showLoop_pages (w : Nat → Nat → Option Nat) (k : Nat) :
    ∀ (n : Nat) (b e : Int), e = b + n * PGSIZE → -2147483648 ≤ b → e < 2147483648 →
      showLoop w (n + 1 + k) b e = some (pagesOut w b n) := by
  intro n
  induction n with
  | zero =>
    intro b e he _ _
    have hf : 0 + 1 + k = k + 1 := by omega
    rw [hf]
    simp [showLoop, pagesOut, he]
  | succ n ih =>
    intro b e he hb hE
    have hf : n + 1 + 1 + k = (n + 1 + k) + 1 := by omega
    have hP : (PGSIZE : Int) = 4096 := rfl
    rw [hf, showLoop]
    have hlt : b < e := by rw [he, hP]; push_cast; omega
    rw [if_pos hlt]
    have hfit : toLong (b + PGSIZE) = b + PGSIZE := by
      apply toLong_of_fits
      · rw [hP]; omega
      · rw [hP]; rw [he, hP] at hE; push_cast at hE; omega
    rw [hfit, ih (b + PGSIZE) e (by rw [he]; push_cast; ring) (by rw [hP]; omega) hE,
      pagesOut_succ]
    rfl

theorem alignBounds_spec (b e : Int) (hb1 : -2147483648 ≤ b) (hb2 : b < 2147483648)
    (he1 : -2147483648 ≤ e) (he2 : e < 2147483648) :
    (alignBounds b e).2.1 % 4096 = 0 ∧ (alignBounds b e).2.2 % 4096 = 0 ∧
    -2147483648 ≤ (alignBounds b e).2.1 ∧ (alignBounds b e).2.2 < 2147483648 ∧
    ((alignBounds b e).1 = true ↔ ¬ (b % 4096 = 0 ∧ e % 4096 = 0)) := by
  unfold alignBounds
  split
  · rename_i h
    simp only [ROUNDUP, ROUNDDOWN, toLong, toU32, PGSIZE] at h ⊢
    refine ⟨?_, ?_, ?_, ?_, ?_⟩ <;> first | omega | (simp only [true_iff]; omega)
  · rename_i h
    simp only [ROUNDUP, ROUNDDOWN, toLong, toU32, PGSIZE] at h ⊢
    refine ⟨?_, ?_, ?_, ?_, ?_⟩ <;> first | omega | (simp; omega)

theorem showRange_pages (w : Nat → Nat → Option Nat) (k : Nat) (b e : Int)
    (hb : b % 4096 = 0) (he : e % 4096 = 0) (hlo : -2147483648 ≤ b) (hhi : e < 2147483648) :
    showRange w (pageCount b e + 1 + k) b e =
      some (if e ≤ b then [Event.cprintf "Error: end_addr must larger than begin_addr\n" []]
            else pagesOut w b (pageCount b e), 0) := by
  unfold showRange
  split
  · rfl
  · rename_i h
    rw [showLoop_pages w k (pageCount b e) b e ?_ hlo hhi]
    · rfl
    · simp only [pageCount, PGSIZE]
      push_cast
      omega

/-- The whole of `mon_showmappings` on an argument vector of three entries, with fuel for the
pages of the aligned range: the warning if a bound was unaligned, then the range error or the
page lines of the aligned range. -/
theorem mon_showmappings_eq (strtol : String → Int) (w : Nat → Nat → Option Nat) (k : Nat)
    (argv : List String) (tf : Option Trapframe) (a : Bool × Int × Int)
    (ha : a = boundsOf strtol argv) :
    mon_showmappings strtol w (pageCount a.2.1 a.2.2 + 1 + k) 3 argv tf =
      some (warningOut a.1 ++
        (if a.2.2 ≤ a.2.1 then [Event.cprintf "Error: end_addr must larger than begin_addr\n" []]
         else pagesOut w a.2.1 (pageCount a.2.1 a.2.2)), 0) := by
  have hb := toLong_fits (strtol (argv.getD 1 ""))
  have he := toLong_fits (strtol (argv.getD 2 ""))
  have hs := alignBounds_spec _ _ hb.1 hb.2 he.1 he.2
  unfold boundsOf at ha
  rw [← ha] at hs
  unfold mon_showmappings
  rw [if_neg (by decide)]
  simp only [← ha]
  rw [showRange_pages w k a.2.1 a.2.2 hs.1 hs.2.1 hs.2.2.1 hs.2.2.2.1]
  rfl

theorem mon_showmappings_empty (parse : String → Int) (w : Nat → Nat → Option Nat)
    (fuel : Nat) (argv : List String) (tf : Option Trapframe)
    (h : (boundsOf parse argv).2.2 ≤ (boundsOf parse argv).2.1) :
    mon_showmappings parse w fuel 3 argv tf =
      some (warningOut (boundsOf parse argv).1 ++
        [Event.cprintf "Error: end_addr must larger than begin_addr\n" []], 0) := by
  unfold boundsOf at h
  unfold mon_showmappings
  rw [if_neg (by decide)]
  simp only [showRange, if_pos h]
  rfl

theorem pageLine_ne_warning (w : Nat → Nat → Option Nat) (b : Int) (ev : Event)
    (h : ev ∈ pageLine w b) :
    ev ≠ Event.cprintf "Warning: not aligned\n the address will aligned automaticly\n" [] := by
  unfold pageLine at h
  cases hw : w (toU32 b) 0 with
  | none =>
    rw [hw] at h
    simp at h
    rcases h with h | h | h <;> simp [h]
  | some e =>
    rw [hw] at h
    simp at h
    rcases h with h | h | h | h <;> simp [h]

/-- With `0x7ffff000` parsed as the first bound, no `long` that the parser can return for the
second bound makes the command walk a page: after alignment `end` is a multiple of `PGSIZE`
that fits a `long`, so it is not above `begin`, and the range error is printed. -/
theorem showmappings_begin_top_of_long (parse : String → Int) (w : Nat → Nat → Option Nat)
    (fuel : Nat) (argv : List String) (tf : Option Trapframe)
    (h : toLong (parse (argv.getD 1 "")) = 2147479552) :
    mon_showmappings parse w fuel 3 argv tf =
      some (warningOut (boundsOf parse argv).1 ++
        [Event.cprintf "Error: end_addr must larger than begin_addr\n" []], 0) := by
  apply mon_showmappings_empty
  have hb := toLong_fits (parse (argv.getD 1 ""))
  have he := toLong_fits (parse (argv.getD 2 ""))
  have hs := alignBounds_spec _ _ hb.1 hb.2 he.1 he.2
  have h1 : (boundsOf parse argv).2.1 = 2147479552 := by
    unfold boundsOf alignBounds
    rw [h]
    split
    · simp only [ROUNDUP, ROUNDDOWN, toLong, toU32, PGSIZE]
      omega
    · rfl
  unfold boundsOf at h1 ⊢
  omega

theorem infix_flatMap_of_mem {α β : Type} (f : α → List β) (l : List α) (a : α) (h : a ∈ l) :
    f a <:+: l.flatMap f := by
  obtain ⟨s, t, rfl⟩ := List.append_of_mem h
  refine ⟨s.flatMap f, t.flatMap f, ?_⟩
  simp [List.flatMap_append, List.flatMap_cons]

theorem backtraceLoop_chain (d : Nat → Eipdebuginfo) (mem : Nat → Nat) (k : Nat) :
    ∀ (fps : List Nat) (start : Nat), FrameChain mem start fps →
      backtraceLoop d mem (fps.length + 1 + k) start = some (fps.flatMap (frameLines d mem)) := by
  intro fps
  induction fps with
  | nil =>
    intro start h
    have hf : ([] : List Nat).length + 1 + k = k + 1 := by simp; omega
    rw [hf]
    simp only [FrameChain] at h
    simp [backtraceLoop, h]
  | cons fp rest ih =>
    intro start h
    obtain ⟨h1, h2, h3⟩ := h
    have hf : (fp :: rest).length + 1 + k = (rest.length + 1 + k) + 1 := by simp; omega
    rw [hf, backtraceLoop, h1, if_neg h2, ih _ h3]
    simp

theorem frameLines_filter (d : Nat → Eipdebuginfo) (mem : Nat → Nat) (fp : Nat) :
    (frameLines d mem fp).filter isFrameLine =
      [Event.cprintf "ebp %x eip %x args" [Arg.word fp, Arg.word (read32 mem (fp + 4))]] := by
  simp [frameLines, isFrameLine, List.range', List.filter, ebpIdx]

theorem mon_backtrace_chain (d : Nat → Eipdebuginfo) (mem : Nat → Nat) (k : Nat)
    (fps : List Nat) (start : Nat) (argc : Int) (argv : List String) (tf : Option Trapframe)
    (h : FrameChain mem start fps) :
    mon_backtrace d mem start (fps.length + 1 + k) argc argv tf =
      some (Event.cprintf "Stack backtrace;\n" [] :: fps.flatMap (frameLines d mem), 0) := by
  unfold mon_backtrace
  rw [backtraceLoop_chain d mem k fps start h]
  rfl

theorem pageLine_filter_isPageLine (w : Nat → Nat → Option Nat) (b : Int) :
    (pageLine w b).filter isPageLine =
      [Event.cprintf "%08x--%08x: " [Arg.word (toU32 b), Arg.word (toU32 (b + PGSIZE))]] := by
  unfold pageLine
  cases w (toU32 b) 0 <;> simp [isPageLine, List.filter]

theorem pageLine_filter_isWalk (w : Nat → Nat → Option Nat) (b : Int) :
    (pageLine w b).filter isWalk = [Event.pgdir_walk (toU32 b) 0] := by
  unfold pageLine
  cases w (toU32 b) 0 <;> simp [isWalk, List.filter]

theorem pagesOut_ne_warning (w : Nat → Nat → Option Nat) (b : Int) (n : Nat) (ev : Event)
    (h : ev ∈ pagesOut w b n) :
    ev ≠ Event.cprintf "Warning: not aligned\n the address will aligned automaticly\n" [] := by
  unfold pagesOut at h
  rw [List.mem_flatMap] at h
  obtain ⟨i, _, hi⟩ := h
  exact pageLine_ne_warning w _ ev hi

theorem ROUNDUP_eq_iff (b : Int) (h1 : -2147483648 ≤ b) (h2 : b < 2147483648) :
    b = ROUNDUP b PGSIZE ↔ b % 4096 = 0 := by
  simp only [ROUNDUP, ROUNDDOWN, toLong, toU32, PGSIZE]
  omega

theorem ROUNDUP_next_boundary (b : Int) :
    toU32 (ROUNDUP b PGSIZE) = ((toU32 b + 4095) / 4096 * 4096) % 4294967296 ∧
    (ROUNDUP b PGSIZE) % 4096 = 0 := by
  simp only [ROUNDUP, ROUNDDOWN, toLong, toU32, PGSIZE]
  omega

theorem ROUNDUP_fits (b : Int) (h1 : -2147483648 ≤ b) (h2 : b ≤ 2147479552) :
    b ≤ ROUNDUP b PGSIZE ∧ ROUNDUP b PGSIZE < b + 4096 := by
  simp only [ROUNDUP, ROUNDDOWN, toLong, toU32, PGSIZE]
  omega

theorem boundsOf_unaligned (parse : String → Int) (argv : List String)
    (h : ¬ (toLong (parse (argv.getD 1 "")) % 4096 = 0 ∧
            toLong (parse (argv.getD 2 "")) % 4096 = 0)) :
    boundsOf parse argv =
      (true, ROUNDUP (toLong (parse (argv.getD 1 ""))) PGSIZE,
        ROUNDUP (toLong (parse (argv.getD 2 ""))) PGSIZE) := by
  have hb := toLong_fits (parse (argv.getD 1 ""))
  have he := toLong_fits (parse (argv.getD 2 ""))
  unfold boundsOf alignBounds
  rw [if_pos]
  rw [ne_eq, ne_eq, ROUNDUP_eq_iff _ hb.1 hb.2, ROUNDUP_eq_iff _ he.1 he.2]
  tauto

theorem and_two_pow_eq (x i : Nat) : x &&& 2 ^ i = if x.testBit i then 2 ^ i else 0 := by
  apply Nat.eq_of_testBit_eq
  intro j
  rw [Nat.testBit_and, Nat.testBit_two_pow]
  by_cases hij : i = j
  · subst hij
    cases hb : x.testBit i <;> simp [Nat.testBit_two_pow_self]
  · cases hb : x.testBit i <;> simp [hij, Nat.testBit_two_pow_of_ne hij]

theorem and_two_pow_ne_zero (x i : Nat) : x &&& 2 ^ i ≠ 0 ↔ x.testBit i = true := by
  rw [and_two_pow_eq]
  cases hb : x.testBit i <;> simp

theorem PTE_ADDR_eq (x : Nat) (h : x < 4294967296) : PTE_ADDR x = x / 4096 * 4096 := by
  unfold PTE_ADDR
  apply Nat.eq_of_testBit_eq
  intro j
  have h1 : (0xFFFFF000 : Nat) = (2 ^ 20 - 1) <<< 12 := by decide
  have h2 : x / 4096 * 4096 = (x >>> 12) <<< 12 := by
    rw [Nat.shiftLeft_eq, Nat.shiftRight_eq_div_pow]
  rw [Nat.testBit_and, h1, h2, Nat.testBit_shiftLeft, Nat.testBit_shiftLeft,
    Nat.testBit_shiftRight, Nat.testBit_two_pow_sub_one]
  by_cases hj : 12 ≤ j
  · have hj2 : 12 + (j - 12) = j := by omega
    rw [hj2]
    by_cases hj3 : j < 32
    · have : j - 12 < 20 := by omega
      simp [hj, this]
    · have hx : x.testBit j = false := by
        apply Nat.testBit_lt_two_pow
        calc x < 2 ^ 32 := h
          _ ≤ 2 ^ j := Nat.pow_le_pow_right (by decide) (by omega)
      simp [hx]
  · simp [hj]

theorem read32_lt (mem : Nat → Nat) (a : Nat) : read32 mem a < 4294967296 := by
  unfold read32
  omega

theorem frameLines_eq (d : Nat → Eipdebuginfo) (mem : Nat → Nat) (fp : Nat) :
    frameLines d mem fp =
      [Event.cprintf "ebp %x eip %x args" [Arg.word fp, Arg.word (read32 mem (fp + 4))],
       Event.cprintf " %08.x" [Arg.word (read32 mem (fp + 8))],
       Event.cprintf " %08.x" [Arg.word (read32 mem (fp + 12))],
       Event.cprintf " %08.x" [Arg.word (read32 mem (fp + 16))],
       Event.cprintf " %08.x" [Arg.word (read32 mem (fp + 20))],
       Event.cprintf " %08.x" [Arg.word (read32 mem (fp + 24))],
       Event.cprintf "\n" [],
       Event.cprintf " %s:%d: %.*s+%d\n"
         [Arg.str (d (read32 mem (fp + 4))).eip_file,
          Arg.word (toU32 (d (read32 mem (fp + 4))).eip_line),
          Arg.word (toU32 (d (read32 mem (fp + 4))).eip_fn_namelen),
          Arg.str (d (read32 mem (fp + 4))).eip_fn_name,
          Arg.word ((read32 mem (fp + 4) + 4294967296 -
            (d (read32 mem (fp + 4))).eip_fn_addr % 4294967296) % 4294967296)]] := by
  simp [frameLines, ebpIdx, List.range']

theorem pageLine_infix_pagesOut (w : Nat → Nat → Option Nat) (b : Int) (n i : Nat)
    (h : i < n) : pageLine w (b + i * PGSIZE) <:+: pagesOut w b n := by
  unfold pagesOut
  exact infix_flatMap_of_mem (fun i : Nat => pageLine w (b + i * PGSIZE)) (List.range n) i
    (List.mem_range.2 h)

theorem pageLine_infix_out (parse : String → Int) (w : Nat → Nat → Option Nat) (k : Nat)
    (argv : List String) (tf : Option Trapframe) (i : Nat)
    (hlt : (boundsOf parse argv).2.1 < (boundsOf parse argv).2.2)
    (hi : i < pageCount (boundsOf parse argv).2.1 (boundsOf parse argv).2.2) :
    ∃ out, mon_showmappings parse w
        (pageCount (boundsOf parse argv).2.1 (boundsOf parse argv).2.2 + 1 + k) 3 argv tf =
          some (out, 0) ∧
      pageLine w ((boundsOf parse argv).2.1 + i * PGSIZE) <:+: out := by
  refine ⟨_, mon_showmappings_eq parse w k argv tf _ rfl, ?_⟩
  rw [if_neg (not_le.2 hlt)]
  obtain ⟨s, t, hst⟩ := pageLine_infix_pagesOut w (boundsOf parse argv).2.1 _ i hi
  refine ⟨warningOut (boundsOf parse argv).1 ++ s, t, ?_⟩
  rw [← hst]
  simp

theorem mon_backtrace_status (d : Nat → Eipdebuginfo) (mem : Nat → Nat) (ebp fuel : Nat)
    (argc : Int) (argv : List String) (tf : Option Trapframe) (out : List Event) (st : Int)
    (h : mon_backtrace d mem ebp fuel argc argv tf = some (out, st)) : st = 0 := by
  unfold mon_backtrace at h
  cases hl : backtraceLoop d mem fuel ebp with
  | none => rw [hl] at h; simp at h
  | some o =>
    rw [hl] at h
    simp only [Option.map_some', Option.some.injEq, Prod.mk.injEq] at h
    exact h.2.symm

theorem showRange_status (w : Nat → Nat → Option Nat) (fuel : Nat) (b e : Int)
    (out : List Event) (st : Int) (h : showRange w fuel b e = some (out, st)) : st = 0 := by
  unfold showRange at h
  split at h
  · simp only [Option.some.injEq, Prod.mk.injEq] at h
    exact h.2.symm
  · cases hl : showLoop w fuel b e with
    | none => rw [hl] at h; simp at h
    | some o =>
      rw [hl] at h
      simp only [Option.map_some', Option.some.injEq, Prod.mk.injEq] at h
      exact h.2.symm

theorem mon_showmappings_status (parse : String → Int) (w : Nat → Nat → Option Nat)
    (fuel : Nat) (argc : Int) (argv : List String) (tf : Option Trapframe) (out : List Event)
    (st : Int) (h : mon_showmappings parse w fuel argc argv tf = some (out, st)) : st = 0 := by
  unfold mon_showmappings at h
  split at h
  · simp only [Option.some.injEq, Prod.mk.injEq] at h
    exact h.2.symm
  · simp only at h
    cases hr : showRange w fuel
        (alignBounds (toLong (parse (argv.getD 1 ""))) (toLong (parse (argv.getD 2 "")))).2.1
        (alignBounds (toLong (parse (argv.getD 1 ""))) (toLong (parse (argv.getD 2 "")))).2.2 with
    | none => rw [hr] at h; simp at h
    | some r =>
      rw [hr] at h
      simp only [Option.map_some', Option.some.injEq, Prod.mk.injEq] at h
      obtain ⟨r1, r2⟩ := r
      have := showRange_status w fuel _ _ r1 r2 hr
      rw [← h.2]
      exact this

theorem command_status (K : Kernel) (fuel : Nat) (argc : Int) (argv : List String)
    (tf : Option Trapframe) (c : Command) (hc : c ∈ commands) (out : List Event) (st : Int)
    (h : c.func K fuel argc argv tf = some (out, st)) : st = 0 := by
  simp only [commands, List.mem_cons, List.mem_singleton, List.not_mem_nil, or_false] at hc
  rcases hc with rfl | rfl | rfl | rfl
  · simp only [mon_help, Option.some.injEq, Prod.mk.injEq] at h
    exact h.2.symm
  · simp only [mon_kerninfo, Option.some.injEq, Prod.mk.injEq] at h
    exact h.2.symm
  · exact mon_backtrace_status K.debuginfo_eip K.mem K.read_ebp fuel argc argv tf out st h
  · exact mon_showmappings_status K.strtol K.pgdir_walk fuel argc argv tf out st h

theorem runcmd_status (K : Kernel) (fuel : Nat) (buf : List Char) (tf : Option Trapframe)
    (out : List Event) (st : Int) (h : runcmd K fuel buf tf = some (out, st)) : st = 0 := by
  unfold runcmd at h
  split at h
  · simp only [Option.some.injEq, Prod.mk.injEq] at h
    exact h.2.symm
  · rename_i argv _
    split at h
    · simp only [Option.some.injEq, Prod.mk.injEq] at h
      exact h.2.symm
    · split at h
      · rename_i c hc
        exact command_status K fuel _ argv tf c (List.mem_of_find?_eq_some hc) out st h
      · simp only [Option.some.injEq, Prod.mk.injEq] at h
        exact h.2.symm

theorem monitorLoop_no_break (K : Kernel) (fuel : Nat) (tf : Option Trapframe) :
    ∀ (lines : List (Option (List Char))) (out : List Event) (brk : Bool),
      monitorLoop K fuel tf lines = some (out, brk) → brk = false := by
  intro lines
  induction lines with
  | nil =>
    intro out brk h
    simp only [monitorLoop, Option.some.injEq, Prod.mk.injEq] at h
    exact h.2.symm
  | cons l rest ih =>
    intro out brk h
    cases l with
    | none =>
      simp only [monitorLoop] at h
      exact ih out brk h
    | some buf =>
      simp only [monitorLoop] at h
      split at h
      · simp at h
      · rename_i o st hr
        have hst := runcmd_status K fuel buf tf o st hr
        subst hst
        simp only [lt_self_iff_false, if_false] at h
        cases hm : monitorLoop K fuel tf rest with
        | none => rw [hm] at h; simp at h
        | some r =>
          rw [hm] at h
          simp only [Option.map_some', Option.some.injEq, Prod.mk.injEq] at h
          obtain ⟨r1, r2⟩ := r
          rw [← h.2]
          exact ih r1 r2 hm

theorem pagesOut_filter_isWalk (w : Nat → Nat → Option Nat) (b : Int) (n : Nat) :
    (pagesOut w b n).filter isWalk =
      (List.range n).map (fun i : Nat => Event.pgdir_walk (toU32 (b + i * PGSIZE)) 0) := by
  unfold pagesOut
  induction (List.range n) with
  | nil => rfl
  | cons a l ih =>
    rw [List.flatMap_cons, List.filter_append, pageLine_filter_isWalk, ih]
    rfl

theorem pagesOut_filter_isPageLine (w : Nat → Nat → Option Nat) (b : Int) (n : Nat) :
    (pagesOut w b n).filter isPageLine =
      (List.range n).map (fun i : Nat =>
        Event.cprintf "%08x--%08x: "
          [Arg.word (toU32 (b + i * PGSIZE)), Arg.word (toU32 (b + i * PGSIZE + PGSIZE))]) := by
  unfold pagesOut
  induction (List.range n) with
  | nil => rfl
  | cons a l ih =>
    rw [List.flatMap_cons, List.filter_append, pageLine_filter_isPageLine, ih]
    rfl

theorem ptAfter_of_create_zero {PT : Type} (effect : PT → Nat → Nat → PT)
    (heff : ∀ p va, effect p va 0 = p) :
    ∀ (out : List Event) (pt : PT),
      (∀ va c, Event.pgdir_walk va c ∈ out → c = 0) → ptAfter effect pt out = pt := by
  intro out
  induction out with
  | nil => intro pt _; rfl
  | cons ev rest ih =>
    intro pt h
    cases ev with
    | cprintf fmt args =>
      simp only [ptAfter]
      exact ih pt (fun va c hm => h va c (List.mem_cons_of_mem _ hm))
    | pgdir_walk va c =>
      have hc : c = 0 := h va c (List.mem_cons_self _ _)
      subst hc
      simp only [ptAfter, heff]
      exact ih pt (fun va c hm => h va c (List.mem_cons_of_mem _ hm))

theorem walk_mem_of_filter (out : List Event) (l : List Nat)
    (h : out.filter isWalk = l.map (fun va => Event.pgdir_walk va 0)) :
    ∀ va c, Event.pgdir_walk va c ∈ out → c = 0 := by
  intro va c hm
  have h1 : Event.pgdir_walk va c ∈ out.filter isWalk := by
    rw [List.mem_filter]
    exact ⟨hm, rfl⟩
  rw [h, List.mem_map] at h1
  obtain ⟨a, _, ha⟩ := h1
  injection ha with _ h2
  exact h2.symm

theorem warningOut_filter_isWalk (b : Bool) : (warningOut b).filter isWalk = [] := by
  cases b <;> decide

theorem warningOut_filter_isPageLine (b : Bool) : (warningOut b).filter isPageLine = [] := by
  cases b <;> decide

theorem pageCount_of_le (b e : Int) (h : e ≤ b) : pageCount b e = 0 := by
  simp only [pageCount, PGSIZE]
  push_cast
  omega

theorem backtraceReads_chain (mem : Nat → Nat) (k : Nat) :
    ∀ (fps : List Nat) (start : Nat), FrameChain mem start fps →
      backtraceReads mem (fps.length + 1 + k) start = some (fps.flatMap frameReads) := by
  intro fps
  induction fps with
  | nil =>
    intro start h
    have hf : ([] : List Nat).length + 1 + k = k + 1 := by simp; omega
    rw [hf]
    simp only [FrameChain] at h
    simp [backtraceReads, h]
  | cons fp rest ih =>
    intro start h
    obtain ⟨h1, h2, h3⟩ := h
    have hf : (fp :: rest).length + 1 + k = (rest.length + 1 + k) + 1 := by simp; omega
    rw [hf, backtraceReads, h1, if_neg h2, ih _ h3]
    simp

theorem frameReads_mem_of_chain (fps : List Nat) (fp a : Nat) (hfp : fp ∈ fps)
    (ha : a ∈ frameReads fp) : a ∈ fps.flatMap frameReads := by
  rw [List.mem_flatMap]
  exact ⟨fp, hfp, ha⟩

theorem frameLine_mem_of_chain (d : Nat → Eipdebuginfo) (mem : Nat → Nat) (fps : List Nat)
    (fp : Nat) (hfp : fp ∈ fps) :
    Event.cprintf "ebp %x eip %x args" [Arg.word fp, Arg.word (read32 mem (fp + 4))] ∈
      Event.cprintf "Stack backtrace;\n" [] :: fps.flatMap (frameLines d mem) := by
  apply List.mem_cons_of_mem
  rw [List.mem_flatMap]
  refine ⟨fp, hfp, ?_⟩
  rw [frameLines_eq]
  exact List.mem_cons_self _ _

theorem backtraceLoop_cyclic (d : Nat → Eipdebuginfo) (mem : Nat → Nat) (fp : Nat)
    (h0 : fp ≠ 0) (hc : read32 mem fp = fp) :
    ∀ fuel, backtraceLoop d mem fuel fp = none := by
  intro fuel
  induction fuel with
  | zero => rfl
  | succ n ih => rw [backtraceLoop, if_neg h0, hc, ih]; rfl

theorem chain_of_backtraceLoop (d : Nat → Eipdebuginfo) (mem : Nat → Nat) :
    ∀ (fuel start : Nat) (out : List Event), backtraceLoop d mem fuel start = some out →
      ∃ fps, FrameChain mem start fps ∧ fps.length < fuel := by
  intro fuel
  induction fuel with
  | zero => intro start out h; simp [backtraceLoop] at h
  | succ n ih =>
    intro start out h
    rw [backtraceLoop] at h
    by_cases h0 : start = 0
    · exact ⟨[], h0, by simp⟩
    · rw [if_neg h0] at h
      cases hl : backtraceLoop d mem n (read32 mem start) with
      | none => rw [hl] at h; simp at h
      | some o =>
        obtain ⟨fps, hch, hlen⟩ := ih _ o hl
        exact ⟨start :: fps, ⟨rfl, h0, hch⟩, by simp; omega⟩

theorem backtraceLoop_short (d : Nat → Eipdebuginfo) (mem : Nat → Nat) :
    ∀ (fps : List Nat) (fuel start : Nat), FrameChain mem start fps → fuel ≤ fps.length →
      backtraceLoop d mem fuel start = none := by
  intro fps
  induction fps with
  | nil =>
    intro fuel start _ hf
    have : fuel = 0 := by simpa using hf
    subst this
    rfl
  | cons fp rest ih =>
    intro fuel start h hf
    obtain ⟨h1, h2, h3⟩ := h
    cases fuel with
    | zero => rfl
    | succ n =>
      rw [backtraceLoop, h1, if_neg h2, ih n _ h3 (by simp at hf; omega)]
      rfl

theorem mon_showmappings_pageLines (parse : String → Int) (w : Nat → Nat → Option Nat)
    (k : Nat) (argv : List String) (tf : Option Trapframe) :
    ∃ out, mon_showmappings parse w
        (pageCount (boundsOf parse argv).2.1 (boundsOf parse argv).2.2 + 1 + k) 3 argv tf =
          some (out, 0) ∧
      out = warningOut (boundsOf parse argv).1 ++
        (if (boundsOf parse argv).2.2 ≤ (boundsOf parse argv).2.1 then
          [Event.cprintf "Error: end_addr must larger than begin_addr\n" []]
         else pagesOut w (boundsOf parse argv).2.1
          (pageCount (boundsOf parse argv).2.1 (boundsOf parse argv).2.2)) ∧
      out.filter isPageLine =
        (List.range (pageCount (boundsOf parse argv).2.1 (boundsOf parse argv).2.2)).map
          (fun i : Nat =>
            Event.cprintf "%08x--%08x: "
              [Arg.word (toU32 ((boundsOf parse argv).2.1 + i * PGSIZE)),
               Arg.word (toU32 ((boundsOf parse argv).2.1 + i * PGSIZE + PGSIZE))]) := by
  refine ⟨_, mon_showmappings_eq parse w k argv tf _ rfl, rfl, ?_⟩
  rw [List.filter_append, warningOut_filter_isPageLine]
  split
  · rename_i hle
    rw [pageCount_of_le _ _ hle]
    rfl
  · rw [pagesOut_filter_isPageLine]
    rfl

theorem wordsOf_nil : wordsOf [] = [] := by
  simp [wordsOf, List.splitOnP_nil]

theorem wordsOf_cons_ws (c : Char) (cs : List Char) (hc : isWhitespace c = true) :
    wordsOf (c :: cs) = wordsOf cs := by
  simp [wordsOf, List.splitOnP_cons, hc]

theorem wordsOf_cons_not_ws (c : Char) (cs h : List Char) (T : List (List Char))
    (hc : isWhitespace c = false) (hs : List.splitOnP isWhitespace cs = h :: T) :
    wordsOf (c :: cs) =
      String.mk (c :: h) :: (T.filter (fun t => !t.isEmpty)).map String.mk := by
  simp [wordsOf, List.splitOnP_cons, hc, hs]

theorem wordsOf_of_split (cs h : List Char) (T : List (List Char))
    (hs : List.splitOnP isWhitespace cs = h :: T) :
    wordsOf cs = ((h :: T).filter (fun t => !t.isEmpty)).map String.mk := by
  simp [wordsOf, hs]

theorem runcmdScan_spec :
    ∀ (cs : List Char), '\x00' ∉ cs →
      ∀ (h : List Char) (T : List (List Char)), List.splitOnP isWhitespace cs = h :: T →
        (∀ argv : List String, argv.length ≤ 15 →
          runcmdScan cs none argv =
            if argv.length + (wordsOf cs).length ≤ 15 then some (argv ++ wordsOf cs)
            else none) ∧
        (∀ (tok : List Char) (argv : List String), argv.length < 15 →
          runcmdScan cs (some tok) argv =
            if argv.length + 1 + (T.filter (fun t => !t.isEmpty)).length ≤ 15 then
              some (argv ++ String.mk (tok ++ h) ::
                (T.filter (fun t => !t.isEmpty)).map String.mk)
            else none) := by
  intro cs
  induction cs with
  | nil =>
    intro _ h T hs
    rw [List.splitOnP_nil] at hs
    injection hs with h1 h2
    subst h1
    subst h2
    constructor
    · intro argv ha
      simp [runcmdScan, wordsOf_nil, ha]
    · intro tok argv ha
      have : argv.length + 1 ≤ 15 := by omega
      simp [runcmdScan, this]
  | cons c cs ih =>
    intro hnul h T hs
    have hc0 : c ≠ '\x00' := fun e => hnul (by rw [e]; exact List.mem_cons_self _ _)
    have hnul' : '\x00' ∉ cs := fun e => hnul (List.mem_cons_of_mem _ e)
    obtain ⟨h', T', hs'⟩ : ∃ h' T', List.splitOnP isWhitespace cs = h' :: T' := by
      cases hsp : List.splitOnP isWhitespace cs with
      | nil => exact absurd hsp (List.splitOnP_ne_nil _ _)
      | cons a l => exact ⟨a, l, rfl⟩
    obtain ⟨ih1, ih2⟩ := ih hnul' h' T' hs'
    rw [List.splitOnP_cons, hs'] at hs
    cases hw : isWhitespace c with
    | true =>
      rw [hw] at hs
      simp only [if_true] at hs
      injection hs with h1 h2
      subst h1
      subst h2
      constructor
      · intro argv ha
        rw [runcmdScan, if_neg hc0, hw, if_pos rfl, ih1 argv ha, wordsOf_cons_ws c cs hw]
      · intro tok argv ha
        rw [runcmdScan, if_neg hc0, hw, if_pos rfl, ih1 _ (by simp; omega),
          wordsOf_of_split cs h' T' hs']
        simp [Nat.add_assoc]
    | false =>
      rw [hw] at hs
      simp only [Bool.false_eq_true, if_false, List.modifyHead_cons] at hs
      injection hs with h1 h2
      subst h1
      subst h2
      constructor
      · intro argv ha
        rw [runcmdScan, if_neg hc0, hw, if_neg (by decide), wordsOf_cons_not_ws c cs h' T' hw hs']
        by_cases h15 : argv.length = 15
        · have hM : argv.length = MAXARGS - 1 := by rw [h15]; rfl
          rw [if_pos hM, if_neg]
          simp
          omega
        · have hM : ¬ argv.length = MAXARGS - 1 := by
            intro e; apply h15; rw [e]; rfl
          rw [if_neg hM, ih2 [c] argv (by omega)]
          simp [Nat.add_assoc, Nat.add_comm]
      · intro tok argv ha
        rw [runcmdScan, if_neg hc0, hw, if_neg (by decide), ih2 (tok ++ [c]) argv ha]
        simp

theorem runcmdScan_eq (line : List Char) (hnul : '\x00' ∉ line) :
    runcmdScan line none [] =
      if (wordsOf line).length ≤ 15 then some (wordsOf line) else none := by
  obtain ⟨h, T, hs⟩ : ∃ h T, List.splitOnP isWhitespace line = h :: T := by
    cases hsp : List.splitOnP isWhitespace line with
    | nil => exact absurd hsp (List.splitOnP_ne_nil _ _)
    | cons a l => exact ⟨a, l, rfl⟩
  have := (runcmdScan_spec line hnul h T hs).1 [] (by simp)
  simpa using this

theorem wordsOf_all_ws (line : List Char) (h : ∀ c ∈ line, isWhitespace c = true) :
    wordsOf line = [] := by
  induction line with
  | nil => exact wordsOf_nil
  | cons c cs ih =>
    rw [wordsOf_cons_ws c cs (h c (List.mem_cons_self _ _))]
    exact ih (fun x hx => h x (List.mem_cons_of_mem _ hx))

theorem runcmd_of_scan (K : Kernel) (fuel : Nat) (line : List Char) (tf : Option Trapframe)
    (argv : List String) (hs : runcmdScan line none [] = some argv) :
    runcmd K fuel line tf =
      if argv.length = 0 then some ([], 0)
      else
        match commands.find? (fun c => decide (c.name = argv.getD 0 "")) with
        | some c => c.func K fuel argv.length argv tf
        | none => some ([Event.cprintf "Unknown command '%s'\n" [Arg.str (argv.getD 0 "")]], 0) := by
  unfold runcmd
  rw [hs]

theorem hexFixed_zero (m : Nat) : hexFixed m 0 = List.replicate m '0' := by
  induction m with
  | zero => rfl
  | succ m ih =>
    rw [hexFixed, Nat.zero_div, ih, List.replicate_succ']
    rfl

theorem hexFixed_length (m v : Nat) : (hexFixed m v).length = m := by
  induction m generalizing v with
  | zero => rfl
  | succ m ih => rw [hexFixed, List.length_append, ih]; rfl

theorem printnum_hex (m : Nat) :
    ∀ (fuel num : Nat) (w : Int), num < 16 ^ (m + 1) → m + 1 ≤ fuel → (m : Int) + 1 ≤ w →
      printnum fuel num 16 w '0' =
        List.replicate (w - (m + 1)).toNat '0' ++ hexFixed (m + 1) num := by
  induction m with
  | zero =>
    intro fuel num w hn hf hw
    obtain ⟨f, rfl⟩ : ∃ f, fuel = f + 1 := ⟨fuel - 1, by omega⟩
    have hlt : ¬ 16 ≤ num := by simpa using hn
    rw [printnum, if_neg hlt]
    simp [hexFixed]
  | succ m ih =>
    intro fuel num w hn hf hw
    obtain ⟨f, rfl⟩ : ∃ f, fuel = f + 1 := ⟨fuel - 1, by omega⟩
    rw [printnum]
    by_cases h16 : 16 ≤ num
    · rw [if_pos h16, ih f (num / 16) (w - 1) (by
          rw [Nat.div_lt_iff_lt_mul (by decide)]
          rw [pow_succ] at hn
          exact hn) (by omega) (by push_cast at hw ⊢; omega)]
      have e : (w - 1 - ((m : Int) + 1)).toNat = (w - (((m + 1 : Nat) : Int) + 1)).toNat := by
        push_cast; congr 1; ring
      rw [e, List.append_assoc]
      rfl
    · rw [if_neg h16]
      have hd : num / 16 = 0 := Nat.div_eq_of_lt (by omega)
      rw [hexFixed, hd, hexFixed_zero, ← List.append_assoc, ← List.replicate_add]
      congr 2
      push_cast at hw ⊢
      omega

theorem printnum_word (v : Nat) (h : v < 4294967296) :
    printnum 64 v 16 8 '0' = hexFixed 8 v := by
  have := printnum_hex 7 64 v 8 (by simpa using h) (by decide) (by decide)
  simpa using this

theorem vprintfmt_range (a b : Nat) :
    vprintfmt "%08x--%08x: ".toList none [Arg.word a, Arg.word b] =
      some (printnum 64 a 16 8 '0' ++ ("--".toList ++ (printnum 64 b 16 8 '0' ++ ": ".toList))) := by
  rfl

theorem vprintfmt_page (v : Nat) :
    vprintfmt "page %08x ".toList none [Arg.word v] =
      some ("page ".toList ++ (printnum 64 v 16 8 '0' ++ " ".toList)) := by
  rfl

theorem vprintfmt_arg (v : Nat) :
    vprintfmt " %08.x".toList none [Arg.word v] = some (' ' :: (printnum 64 v 16 8 '0' ++ [])) := by
  rfl

theorem vprintfmt_frame (fp eip : Nat) :
    vprintfmt "ebp %x eip %x args".toList none [Arg.word fp, Arg.word eip] =
      some ("ebp ".toList ++ (printnum 64 fp 16 (-1) ' ' ++
        (" eip ".toList ++ (printnum 64 eip 16 (-1) ' ' ++ " args".toList)))) := by
  rfl

/-- The alignment step on the values the code holds: `mon_showmappings` prints the alignment
warning exactly when one of the two parsed bounds is not a multiple of `PGSIZE`; in that case the range check and the walk run on the two
bounds rounded up, each to the next multiple of `PGSIZE` as a 32-bit address (modulo `2^32`),
and without overflow to the least multiple of `PGSIZE` that is not below the bound.  For
`showmappings 0x1001 0x2500` the output is the warning and the one page line of
`[0x2000, 0x3000)`. -/
theorem mon_showmappings_alignment_step (parse : String → Int) (w : Nat → Nat → Option Nat)
    (k : Nat) (argv : List String) (tf : Option Trapframe) :
    (∃ out, mon_showmappings parse w
        (pageCount (boundsOf parse argv).2.1 (boundsOf parse argv).2.2 + 1 + k) 3 argv tf =
          some (out, 0) ∧
      (Event.cprintf "Warning: not aligned\n the address will aligned automaticly\n" [] ∈ out ↔
        ¬ (toLong (parse (argv.getD 1 "")) % PGSIZE = 0 ∧
           toLong (parse (argv.getD 2 "")) % PGSIZE = 0)) ∧
      (¬ (toLong (parse (argv.getD 1 "")) % PGSIZE = 0 ∧
           toLong (parse (argv.getD 2 "")) % PGSIZE = 0) →
        out = Event.cprintf "Warning: not aligned\n the address will aligned automaticly\n" [] ::
          (if ROUNDUP (toLong (parse (argv.getD 2 ""))) PGSIZE ≤
              ROUNDUP (toLong (parse (argv.getD 1 ""))) PGSIZE then
            [Event.cprintf "Error: end_addr must larger than begin_addr\n" []]
          else
            pagesOut w (ROUNDUP (toLong (parse (argv.getD 1 ""))) PGSIZE)
              (pageCount (ROUNDUP (toLong (parse (argv.getD 1 ""))) PGSIZE)
                (ROUNDUP (toLong (parse (argv.getD 2 ""))) PGSIZE))))) ∧
    (∀ a : Int,
      toU32 (ROUNDUP a PGSIZE) = ((toU32 a + 4095) / 4096 * 4096) % 4294967296 ∧
      ROUNDUP a PGSIZE % 4096 = 0 ∧
      (-2147483648 ≤ a → a ≤ 2147479552 →
        a ≤ ROUNDUP a PGSIZE ∧ ROUNDUP a PGSIZE < a + 4096)) ∧
    (∃ out, mon_showmappings strtol w (k + 2) 3 ["showmappings", "0x1001", "0x2500"] tf =
        some (out, 0) ∧
      out = Event.cprintf "Warning: not aligned\n the address will aligned automaticly\n" [] ::
        pageLine w 0x2000 ∧
      out.filter isPageLine = [Event.cprintf "%08x--%08x: " [Arg.word 0x2000, Arg.word 0x3000]] ∧
      out.filter isWalk = [Event.pgdir_walk 0x2000 0]) := by
  have hP : (PGSIZE : Int) = 4096 := rfl
  refine ⟨⟨_, mon_showmappings_eq parse w k argv tf _ rfl, ?_, ?_⟩, ?_, ?_⟩
  · rw [hP]
    have hb := toLong_fits (parse (argv.getD 1 ""))
    have he := toLong_fits (parse (argv.getD 2 ""))
    have hs := (alignBounds_spec _ _ hb.1 hb.2 he.1 he.2).2.2.2.2
    rw [← hs]
    change _ ↔ (boundsOf parse argv).1 = true
    rw [List.mem_append]
    constructor
    · rintro (h | h)
      · cases hw : (boundsOf parse argv).1
        · rw [hw] at h; simp [warningOut] at h
        · rfl
      · exfalso
        split at h
        · simp at h
        · exact pagesOut_ne_warning w _ _ _ h rfl
    · intro h
      left
      rw [h]
      simp [warningOut]
  · rw [hP]
    intro h
    rw [boundsOf_unaligned parse argv h]
    simp [warningOut]
  · intro a
    exact ⟨(ROUNDUP_next_boundary a).1, (ROUNDUP_next_boundary a).2, ROUNDUP_fits a⟩
  · have hf : k + 2 = pageCount (boundsOf strtol ["showmappings", "0x1001", "0x2500"]).2.1
        (boundsOf strtol ["showmappings", "0x1001", "0x2500"]).2.2 + 1 + k := by
      have : pageCount (boundsOf strtol ["showmappings", "0x1001", "0x2500"]).2.1
        (boundsOf strtol ["showmappings", "0x1001", "0x2500"]).2.2 = 1 := by decide
      rw [this]; omega
    refine ⟨_, ?_, rfl, ?_, ?_⟩
    · rw [hf, mon_showmappings_eq strtol w k _ tf _ rfl]
      have h1 : boundsOf strtol ["showmappings", "0x1001", "0x2500"] = (true, 8192, 12288) := by
        decide
      rw [h1]
      have h2 : pageCount 8192 12288 = 0 + 1 := by decide
      simp only [h2, pagesOut_succ]
      simp [warningOut, pagesOut]
    · rw [List.filter_cons_of_neg (by decide), pageLine_filter_isPageLine]
      rfl
    · rw [List.filter_cons_of_neg (by decide), pageLine_filter_isWalk]
      rfl

/-! ## Claims -/

/-- C1: for the command line `showmappings 0x7ffff000 0x80000000`, whose two arguments are
page-aligned addresses with the first below the second and one page between them, the code
prints the range error and nothing else: no page line and no walker query, for every walker
and every amount of fuel.  The second bound does not fit a 32-bit `long`. -/
theorem showmappings_range_across_sign_bit (w : Nat → Nat → Option Nat) (fuel : Nat)
    (tf : Option Trapframe) :
    strtol "0x7ffff000" = 2147479552 ∧ strtol "0x80000000" = 2147483648 ∧
    (2147479552 : Int) % PGSIZE = 0 ∧ (2147483648 : Int) % PGSIZE = 0 ∧
    ((2147483648 : Int) - 2147479552) / PGSIZE = 1 ∧
    mon_showmappings strtol w fuel 3 ["showmappings", "0x7ffff000", "0x80000000"] tf =
      some ([Event.cprintf "Error: end_addr must larger than begin_addr\n" []], 0) := by
  refine ⟨by decide, by decide, by decide, by decide, by decide, ?_⟩
  rfl

/-- C2: on a memory holding a frame-pointer chain `fps` from the starting frame pointer on, with
fuel for one iteration more than the chain is long, `mon_backtrace` returns, and the frame info
lines of its output are exactly those of the pointers of the chain, in the order of the chain,
each with the word stored one word (4 bytes) past the frame pointer as its return address, for
every resolver. -/
theorem backtrace_frames_of_chain (d : Nat → Eipdebuginfo) (mem : Nat → Nat) (k : Nat)
    (fps : List Nat) (start : Nat) (argc : Int) (argv : List String) (tf : Option Trapframe)
    (h : FrameChain mem start fps) :
    ∃ out, mon_backtrace d mem start (fps.length + 1 + k) argc argv tf = some (out, 0) ∧
      out.filter isFrameLine =
        fps.map (fun fp =>
          Event.cprintf "ebp %x eip %x args" [Arg.word fp, Arg.word (read32 mem (fp + 4))]) ∧
      (out.filter isFrameLine).length = fps.length := by
  refine ⟨_, mon_backtrace_chain d mem k fps start argc argv tf h, ?_⟩
  have key : ∀ l : List Nat, (l.flatMap (frameLines d mem)).filter isFrameLine =
      l.map (fun fp =>
        Event.cprintf "ebp %x eip %x args" [Arg.word fp, Arg.word (read32 mem (fp + 4))]) := by
    intro l
    induction l with
    | nil => rfl
    | cons a l ih => rw [List.flatMap_cons, List.filter_append, frameLines_filter, ih]; rfl
  have hh : isFrameLine (Event.cprintf "Stack backtrace;\n" []) = false := by decide
  rw [List.filter_cons_of_neg (by simp [hh]), key]
  simp

/-- Witness of C2: the three-frame chain of `chainMem`, walked with a resolver that knows
nothing. -/
theorem backtrace_frames_of_chain_witness :
    FrameChain chainMem 0x100 [0x100, 0x200, 0x300] ∧
    ∃ out, mon_backtrace noDebugInfo chainMem 0x100
        ([0x100, 0x200, 0x300].length + 1 + 0) 0 [] none = some (out, 0) ∧
      out.filter isFrameLine =
        [0x100, 0x200, 0x300].map (fun fp =>
          Event.cprintf "ebp %x eip %x args"
            [Arg.word fp, Arg.word (read32 chainMem (fp + 4))]) ∧
      (out.filter isFrameLine).length = [0x100, 0x200, 0x300].length :=
  ⟨by simp [FrameChain, read32, chainMem],
   backtrace_frames_of_chain noDebugInfo chainMem 0 [0x100, 0x200, 0x300] 0x100 0 [] none
     (by simp [FrameChain, read32, chainMem])⟩

/-- C3: for the command line `showmappings 0xfffff000 0x1000`, whose two arguments are
page-aligned addresses with the end below the begin, the code prints no error line: the begin
bound is a negative `long`, the signed test `end <= begin` fails, and the two pages from
`0xfffff000` and from `0` are walked and reported, for every walker. -/
theorem showmappings_end_below_begin_walked (w : Nat → Nat → Option Nat)
    (tf : Option Trapframe) :
    strtol "0xfffff000" = 4294963200 ∧ strtol "0x1000" = 4096 ∧
    (4294963200 : Int) % PGSIZE = 0 ∧ (4096 : Int) % PGSIZE = 0 ∧
    (4096 : Int) ≤ 4294963200 ∧
    boundsOf strtol ["showmappings", "0xfffff000", "0x1000"] = (false, -4096, 4096) ∧
    (∃ out, mon_showmappings strtol w 3 3 ["showmappings", "0xfffff000", "0x1000"] tf =
        some (out, 0) ∧
      out = pageLine w (-4096) ++ pageLine w 0 ∧
      out.filter isPageLine =
        [Event.cprintf "%08x--%08x: " [Arg.word 0xfffff000, Arg.word 0],
         Event.cprintf "%08x--%08x: " [Arg.word 0, Arg.word 0x1000]] ∧
      out.filter isWalk = [Event.pgdir_walk 0xfffff000 0, Event.pgdir_walk 0 0] ∧
      Event.cprintf "Error: end_addr must larger than begin_addr\n" [] ∉ out) := by
  refine ⟨by decide, by decide, by decide, by decide, by decide, by decide, _, ?_, rfl, ?_, ?_, ?_⟩
  · have hb : boundsOf strtol ["showmappings", "0xfffff000", "0x1000"] = (false, -4096, 4096) := by
      decide
    have hc : pageCount (-4096 : Int) 4096 = 0 + 1 + 1 := by decide
    have hf : 3 = pageCount (boundsOf strtol ["showmappings", "0xfffff000", "0x1000"]).2.1
        (boundsOf strtol ["showmappings", "0xfffff000", "0x1000"]).2.2 + 1 + 0 := by
      rw [hb, hc]
    rw [hf, mon_showmappings_eq strtol w 0 _ tf _ rfl, hb]
    simp only [hc, pagesOut_succ]
    simp [warningOut, pagesOut, PGSIZE]
  · rw [List.filter_append, pageLine_filter_isPageLine, pageLine_filter_isPageLine]
    rfl
  · rw [List.filter_append, pageLine_filter_isWalk, pageLine_filter_isWalk]
    rfl
  · intro hm
    rw [List.mem_append] at hm
    rcases hm with hm | hm
    · unfold pageLine at hm
      cases hw : w (toU32 (-4096)) 0 <;> rw [hw] at hm <;> simp at hm
    · unfold pageLine at hm
      cases hw : w (toU32 0) 0 <;> rw [hw] at hm <;> simp at hm

/-- C4: for the command line `showmappings 0x7fffe001 0x7ffff001` both bounds are unaligned and
the warning is printed; rounded up to the next page boundary they are the addresses
`0x7ffff000` and `0x80000000`, a range of one page.  The code does not walk it: the rounded end
is a negative `long`, the signed test `end <= begin` holds, and the range error is printed
after the warning, with no page line, for every walker and every amount of fuel. -/
theorem showmappings_rounded_range_rejected (w : Nat → Nat → Option Nat) (fuel : Nat)
    (tf : Option Trapframe) :
    strtol "0x7fffe001" = 2147475457 ∧ strtol "0x7ffff001" = 2147479553 ∧
    toU32 (ROUNDUP (toLong (strtol "0x7fffe001")) PGSIZE) = 0x7ffff000 ∧
    toU32 (ROUNDUP (toLong (strtol "0x7ffff001")) PGSIZE) = 0x80000000 ∧
    (0x80000000 - 0x7ffff000) / PGSIZE = 1 ∧
    mon_showmappings strtol w fuel 3 ["showmappings", "0x7fffe001", "0x7ffff001"] tf =
      some ([Event.cprintf "Warning: not aligned\n the address will aligned automaticly\n" [],
             Event.cprintf "Error: end_addr must larger than begin_addr\n" []], 0) := by
  refine ⟨by decide, by decide, by decide, by decide, by decide, ?_⟩
  rfl

/-- C5: for every page of the walked range for which the page-table walker returns an entry
`pte`, the output holds the report line of that page: the range, the query of the walker, the
frame address `pte` with its 12 low bits cleared, and the three indicators `pte & PTE_P`,
`pte & PTE_W`, `pte & PTE_U`, each of them non-zero exactly when bit 0, 1 or 2 of the entry
is set. -/
theorem showmappings_entry_line (parse : String → Int) (w : Nat → Nat → Option Nat) (k : Nat)
    (argv : List String) (tf : Option Trapframe) (i pte : Nat)
    (hlt : (boundsOf parse argv).2.1 < (boundsOf parse argv).2.2)
    (hi : i < pageCount (boundsOf parse argv).2.1 (boundsOf parse argv).2.2)
    (hw : w (toU32 ((boundsOf parse argv).2.1 + i * PGSIZE)) 0 = some pte)
    (hp : pte < 4294967296) :
    ∃ out, mon_showmappings parse w
        (pageCount (boundsOf parse argv).2.1 (boundsOf parse argv).2.2 + 1 + k) 3 argv tf =
          some (out, 0) ∧
      [Event.cprintf "%08x--%08x: "
         [Arg.word (toU32 ((boundsOf parse argv).2.1 + i * PGSIZE)),
          Arg.word (toU32 ((boundsOf parse argv).2.1 + i * PGSIZE + PGSIZE))],
       Event.pgdir_walk (toU32 ((boundsOf parse argv).2.1 + i * PGSIZE)) 0,
       Event.cprintf "page %08x " [Arg.word (pte / 4096 * 4096)],
       Event.cprintf "PTE_P: %x, PTE_W: %x, PTE_U: %x\n"
         [Arg.word (pte &&& PTE_P), Arg.word (pte &&& PTE_W), Arg.word (pte &&& PTE_U)]]
        <:+: out ∧
      (pte &&& PTE_P ≠ 0 ↔ pte.testBit 0 = true) ∧
      (pte &&& PTE_W ≠ 0 ↔ pte.testBit 1 = true) ∧
      (pte &&& PTE_U ≠ 0 ↔ pte.testBit 2 = true) := by
  obtain ⟨out, h1, h2⟩ := pageLine_infix_out parse w k argv tf i hlt hi
  refine ⟨out, h1, ?_, and_two_pow_ne_zero pte 0, and_two_pow_ne_zero pte 1,
    and_two_pow_ne_zero pte 2⟩
  unfold pageLine at h2
  rw [hw] at h2
  simp only [Nat.mod_eq_of_lt hp, PTE_ADDR_eq pte hp] at h2
  exact h2

/-- Witness of C5: `showmappings 0x1000 0x3000` with the page `0x1000` mapped by the entry
`0x5003`. -/
theorem showmappings_entry_line_witness :
    (boundsOf strtol ["showmappings", "0x1000", "0x3000"]).2.1 <
      (boundsOf strtol ["showmappings", "0x1000", "0x3000"]).2.2 ∧
    0 < pageCount (boundsOf strtol ["showmappings", "0x1000", "0x3000"]).2.1
      (boundsOf strtol ["showmappings", "0x1000", "0x3000"]).2.2 ∧
    ∃ out, mon_showmappings strtol oneMapped
        (pageCount (boundsOf strtol ["showmappings", "0x1000", "0x3000"]).2.1
          (boundsOf strtol ["showmappings", "0x1000", "0x3000"]).2.2 + 1 + 0) 3
        ["showmappings", "0x1000", "0x3000"] none = some (out, 0) ∧
      [Event.cprintf "%08x--%08x: "
         [Arg.word (toU32 ((boundsOf strtol ["showmappings", "0x1000", "0x3000"]).2.1
            + (0 : Nat) * PGSIZE)),
          Arg.word (toU32 ((boundsOf strtol ["showmappings", "0x1000", "0x3000"]).2.1
            + (0 : Nat) * PGSIZE + PGSIZE))],
       Event.pgdir_walk (toU32 ((boundsOf strtol ["showmappings", "0x1000", "0x3000"]).2.1
            + (0 : Nat) * PGSIZE)) 0,
       Event.cprintf "page %08x " [Arg.word (0x5003 / 4096 * 4096)],
       Event.cprintf "PTE_P: %x, PTE_W: %x, PTE_U: %x\n"
         [Arg.word (0x5003 &&& PTE_P), Arg.word (0x5003 &&& PTE_W), Arg.word (0x5003 &&& PTE_U)]]
        <:+: out ∧
      (0x5003 &&& PTE_P ≠ 0 ↔ (0x5003 : Nat).testBit 0 = true) ∧
      (0x5003 &&& PTE_W ≠ 0 ↔ (0x5003 : Nat).testBit 1 = true) ∧
      (0x5003 &&& PTE_U ≠ 0 ↔ (0x5003 : Nat).testBit 2 = true) :=
  ⟨by decide, by decide,
   showmappings_entry_line strtol oneMapped 0 ["showmappings", "0x1000", "0x3000"] none 0 0x5003
     (by decide) (by decide) (by decide) (by decide)⟩

/-- C6, as stated, fails: on `showmappings 0x1000 0x2000` with a walker that returns, for the
page `0x1000`, an entry whose Present bit is clear, the report line of the page is a frame
address (`page`, here `0`) with the three indicators at 0, and `not mapped` is not printed. -/
theorem showmappings_absent_entry_printed_as_page :
    emptyEntries 0x1000 0 = some 0 ∧ (0 : Nat).testBit 0 = false ∧
    mon_showmappings strtol emptyEntries 2 3 ["showmappings", "0x1000", "0x2000"] none =
      some ([Event.cprintf "%08x--%08x: " [Arg.word 0x1000, Arg.word 0x2000],
             Event.pgdir_walk 0x1000 0,
             Event.cprintf "page %08x " [Arg.word 0],
             Event.cprintf "PTE_P: %x, PTE_W: %x, PTE_U: %x\n"
               [Arg.word 0, Arg.word 0, Arg.word 0]], 0) ∧
    Event.cprintf "not mapped\n" [] ∉
      [Event.cprintf "%08x--%08x: " [Arg.word 0x1000, Arg.word 0x2000],
       Event.pgdir_walk 0x1000 0,
       Event.cprintf "page %08x " [Arg.word 0],
       Event.cprintf "PTE_P: %x, PTE_W: %x, PTE_U: %x\n"
         [Arg.word 0, Arg.word 0, Arg.word 0]] := by
  decide

/-- C6, amended: for every page of the walked range for which the page-table walker returns
no entry, the report line of that page is the range, the query of the walker and `not mapped`:
it holds no frame address. -/
theorem showmappings_no_entry_line (parse : String → Int) (w : Nat → Nat → Option Nat)
    (k : Nat) (argv : List String) (tf : Option Trapframe) (i : Nat)
    (hlt : (boundsOf parse argv).2.1 < (boundsOf parse argv).2.2)
    (hi : i < pageCount (boundsOf parse argv).2.1 (boundsOf parse argv).2.2)
    (hw : w (toU32 ((boundsOf parse argv).2.1 + i * PGSIZE)) 0 = none) :
    ∃ out, mon_showmappings parse w
        (pageCount (boundsOf parse argv).2.1 (boundsOf parse argv).2.2 + 1 + k) 3 argv tf =
          some (out, 0) ∧
      pageLine w ((boundsOf parse argv).2.1 + i * PGSIZE) <:+: out ∧
      pageLine w ((boundsOf parse argv).2.1 + i * PGSIZE) =
        [Event.cprintf "%08x--%08x: "
           [Arg.word (toU32 ((boundsOf parse argv).2.1 + i * PGSIZE)),
            Arg.word (toU32 ((boundsOf parse argv).2.1 + i * PGSIZE + PGSIZE))],
         Event.pgdir_walk (toU32 ((boundsOf parse argv).2.1 + i * PGSIZE)) 0,
         Event.cprintf "not mapped\n" []] := by
  obtain ⟨out, h1, h2⟩ := pageLine_infix_out parse w k argv tf i hlt hi
  refine ⟨out, h1, h2, ?_⟩
  unfold pageLine
  rw [hw]
  rfl

/-- Witness of C6, amended: `showmappings 0x1000 0x3000` where only `0x1000` has an entry; the
second page, `0x2000`, has none. -/
theorem showmappings_no_entry_line_witness :
    (boundsOf strtol ["showmappings", "0x1000", "0x3000"]).2.1 <
      (boundsOf strtol ["showmappings", "0x1000", "0x3000"]).2.2 ∧
    1 < pageCount (boundsOf strtol ["showmappings", "0x1000", "0x3000"]).2.1
      (boundsOf strtol ["showmappings", "0x1000", "0x3000"]).2.2 ∧
    ∃ out, mon_showmappings strtol oneMapped
        (pageCount (boundsOf strtol ["showmappings", "0x1000", "0x3000"]).2.1
          (boundsOf strtol ["showmappings", "0x1000", "0x3000"]).2.2 + 1 + 0) 3
        ["showmappings", "0x1000", "0x3000"] none = some (out, 0) ∧
      pageLine oneMapped ((boundsOf strtol ["showmappings", "0x1000", "0x3000"]).2.1
          + (1 : Nat) * PGSIZE) <:+: out ∧
      pageLine oneMapped ((boundsOf strtol ["showmappings", "0x1000", "0x3000"]).2.1
          + (1 : Nat) * PGSIZE) =
        [Event.cprintf "%08x--%08x: "
           [Arg.word (toU32 ((boundsOf strtol ["showmappings", "0x1000", "0x3000"]).2.1
              + (1 : Nat) * PGSIZE)),
            Arg.word (toU32 ((boundsOf strtol ["showmappings", "0x1000", "0x3000"]).2.1
              + (1 : Nat) * PGSIZE + PGSIZE))],
         Event.pgdir_walk (toU32 ((boundsOf strtol ["showmappings", "0x1000", "0x3000"]).2.1
              + (1 : Nat) * PGSIZE)) 0,
         Event.cprintf "not mapped\n" []] :=
  ⟨by decide, by decide,
   showmappings_no_entry_line strtol oneMapped 0 ["showmappings", "0x1000", "0x3000"] none 1
     (by decide) (by decide) (by decide)⟩

/-- C7, as stated, fails: in the scenario `showmappings 0x1000 0x3000` with `0x1000` mapped
present and writable but not user (entry `0x5003`) and `0x2000` without an entry, the two page
lines are printed, but the Writable indicator of the first one is 2, the value of
`pte & PTE_W`, and a line with the indicators P=1, W=1, U=0 is not in the output. -/
theorem showmappings_scenario_writable_indicator :
    mon_showmappings strtol oneMapped 3 3 ["showmappings", "0x1000", "0x3000"] none =
      some ([Event.cprintf "%08x--%08x: " [Arg.word 0x1000, Arg.word 0x2000],
             Event.pgdir_walk 0x1000 0,
             Event.cprintf "page %08x " [Arg.word 0x5000],
             Event.cprintf "PTE_P: %x, PTE_W: %x, PTE_U: %x\n"
               [Arg.word 1, Arg.word 2, Arg.word 0],
             Event.cprintf "%08x--%08x: " [Arg.word 0x2000, Arg.word 0x3000],
             Event.pgdir_walk 0x2000 0,
             Event.cprintf "not mapped\n" []], 0) ∧
    ¬ ∃ out, mon_showmappings strtol oneMapped 3 3 ["showmappings", "0x1000", "0x3000"] none =
        some (out, 0) ∧
      Event.cprintf "PTE_P: %x, PTE_W: %x, PTE_U: %x\n" [Arg.word 1, Arg.word 1, Arg.word 0]
        ∈ out := by
  have h : mon_showmappings strtol oneMapped 3 3 ["showmappings", "0x1000", "0x3000"] none =
      some ([Event.cprintf "%08x--%08x: " [Arg.word 0x1000, Arg.word 0x2000],
             Event.pgdir_walk 0x1000 0,
             Event.cprintf "page %08x " [Arg.word 0x5000],
             Event.cprintf "PTE_P: %x, PTE_W: %x, PTE_U: %x\n"
               [Arg.word 1, Arg.word 2, Arg.word 0],
             Event.cprintf "%08x--%08x: " [Arg.word 0x2000, Arg.word 0x3000],
             Event.pgdir_walk 0x2000 0,
             Event.cprintf "not mapped\n" []], 0) := by decide
  refine ⟨h, ?_⟩
  rintro ⟨out, h1, h2⟩
  rw [h] at h1
  injection h1 with h1
  injection h1 with h1 _
  subst h1
  revert h2
  decide

/-- C7, amended: for the range `[0x1000, 0x3000)` where the walker returns for `0x1000` an
entry with the Present and Writable bits set and the User bit clear, and no entry for `0x2000`,
`mon_showmappings` prints exactly two page lines: the first shows the frame of the entry with
the indicators `PTE_P: 1`, `PTE_W: 2`, `PTE_U: 0` (each indicator is the entry masked with the
bit, so a set Writable bit shows as 2), the second shows `not mapped`. -/
theorem showmappings_two_page_scenario (parse : String → Int) (w : Nat → Nat → Option Nat)
    (k : Nat) (argv : List String) (tf : Option Trapframe) (pte : Nat)
    (h1 : toLong (parse (argv.getD 1 "")) = 0x1000)
    (h2 : toLong (parse (argv.getD 2 "")) = 0x3000)
    (hw1 : w 0x1000 0 = some pte) (hp : pte < 4294967296)
    (hP : pte.testBit 0 = true) (hW : pte.testBit 1 = true) (hU : pte.testBit 2 = false)
    (hw2 : w 0x2000 0 = none) :
    mon_showmappings parse w (k + 3) 3 argv tf =
      some ([Event.cprintf "%08x--%08x: " [Arg.word 0x1000, Arg.word 0x2000],
             Event.pgdir_walk 0x1000 0,
             Event.cprintf "page %08x " [Arg.word (pte / 4096 * 4096)],
             Event.cprintf "PTE_P: %x, PTE_W: %x, PTE_U: %x\n"
               [Arg.word 1, Arg.word 2, Arg.word 0],
             Event.cprintf "%08x--%08x: " [Arg.word 0x2000, Arg.word 0x3000],
             Event.pgdir_walk 0x2000 0,
             Event.cprintf "not mapped\n" []], 0) := by
  have hb : boundsOf parse argv = (false, 4096, 12288) := by
    unfold boundsOf
    rw [h1, h2]
    decide
  have hc : pageCount (4096 : Int) 12288 = 0 + 1 + 1 := by decide
  have hf : k + 3 = pageCount (boundsOf parse argv).2.1 (boundsOf parse argv).2.2 + 1 + k := by
    rw [hb, hc]; omega
  have e0 : pte &&& PTE_P = 1 := by
    have := and_two_pow_eq pte 0
    simpa [hP, PTE_P] using this
  have e1 : pte &&& PTE_W = 2 := by
    have := and_two_pow_eq pte 1
    simpa [hW, PTE_W] using this
  have e2 : pte &&& PTE_U = 0 := by
    have := and_two_pow_eq pte 2
    simpa [hU, PTE_U] using this
  have t1 : toU32 4096 = 4096 := by decide
  have t2 : toU32 (4096 + (PGSIZE : Int)) = 8192 := by decide
  have t3 : toU32 (4096 + (PGSIZE : Int) + PGSIZE) = 12288 := by decide
  rw [hf, mon_showmappings_eq parse w k argv tf _ rfl, hb]
  simp only [hc, pagesOut_succ, pageLine, t1, t2, t3, hw1, hw2, Nat.mod_eq_of_lt hp,
    PTE_ADDR_eq pte hp, e0, e1, e2]
  simp [warningOut, pagesOut]

/-- Witness of C7, amended: the scenario with the entry `0x5003` for the page `0x1000`. -/
theorem showmappings_two_page_scenario_witness :
    toLong (strtol (["showmappings", "0x1000", "0x3000"].getD 1 "")) = 0x1000 ∧
    toLong (strtol (["showmappings", "0x1000", "0x3000"].getD 2 "")) = 0x3000 ∧
    oneMapped 0x1000 0 = some 0x5003 ∧ oneMapped 0x2000 0 = none ∧
    mon_showmappings strtol oneMapped (0 + 3) 3 ["showmappings", "0x1000", "0x3000"] none =
      some ([Event.cprintf "%08x--%08x: " [Arg.word 0x1000, Arg.word 0x2000],
             Event.pgdir_walk 0x1000 0,
             Event.cprintf "page %08x " [Arg.word (0x5003 / 4096 * 4096)],
             Event.cprintf "PTE_P: %x, PTE_W: %x, PTE_U: %x\n"
               [Arg.word 1, Arg.word 2, Arg.word 0],
             Event.cprintf "%08x--%08x: " [Arg.word 0x2000, Arg.word 0x3000],
             Event.pgdir_walk 0x2000 0,
             Event.cprintf "not mapped\n" []], 0) :=
  ⟨by decide, by decide, by decide, by decide,
   showmappings_two_page_scenario strtol oneMapped 0 ["showmappings", "0x1000", "0x3000"] none
     0x5003 (by decide) (by decide) (by decide) (by decide) (by decide) (by decide) (by decide)
     (by decide)⟩

/-- C8: on the three-frame stack of `chainMem` the output of `mon_backtrace` is a header line
followed by the lines of the three frames and nothing else, but the header the code prints is
`Stack backtrace;`, with a semicolon: the line `Stack backtrace:` is not in the output. -/
theorem backtrace_header_semicolon :
    mon_backtrace noDebugInfo chainMem 0x100 4 1 ["backtrace"] none =
      some (Event.cprintf "Stack backtrace;\n" [] ::
        [0x100, 0x200, 0x300].flatMap (frameLines noDebugInfo chainMem), 0) ∧
    Event.cprintf "Stack backtrace:\n" [] ∉
      Event.cprintf "Stack backtrace;\n" [] ::
        [0x100, 0x200, 0x300].flatMap (frameLines noDebugInfo chainMem) := by
  decide

/-- C9: for every frame pointer `fp` of the chain `mon_backtrace` walks, the output holds the
two lines of that frame: the frame info line with `fp`, the word at `fp + 4` as return address
and the five words at `fp + 8`, ..., `fp + 24` in that order, then the location line with the
file, line and function name the resolver returned for that return address and the offset
`return address - entry address` computed on 32 bits (the plain difference when the entry
address is not above the return address). -/
theorem backtrace_frame_report (d : Nat → Eipdebuginfo) (mem : Nat → Nat) (k : Nat)
    (fps : List Nat) (start : Nat) (argc : Int) (argv : List String) (tf : Option Trapframe)
    (fp : Nat) (h : FrameChain mem start fps) (hfp : fp ∈ fps) :
    ∃ out offset, mon_backtrace d mem start (fps.length + 1 + k) argc argv tf = some (out, 0) ∧
      [Event.cprintf "ebp %x eip %x args" [Arg.word fp, Arg.word (read32 mem (fp + 4))],
       Event.cprintf " %08.x" [Arg.word (read32 mem (fp + 8))],
       Event.cprintf " %08.x" [Arg.word (read32 mem (fp + 12))],
       Event.cprintf " %08.x" [Arg.word (read32 mem (fp + 16))],
       Event.cprintf " %08.x" [Arg.word (read32 mem (fp + 20))],
       Event.cprintf " %08.x" [Arg.word (read32 mem (fp + 24))],
       Event.cprintf "\n" [],
       Event.cprintf " %s:%d: %.*s+%d\n"
         [Arg.str (d (read32 mem (fp + 4))).eip_file,
          Arg.word (toU32 (d (read32 mem (fp + 4))).eip_line),
          Arg.word (toU32 (d (read32 mem (fp + 4))).eip_fn_namelen),
          Arg.str (d (read32 mem (fp + 4))).eip_fn_name,
          Arg.word offset]] <:+: out ∧
      (offset : Int) =
        ((read32 mem (fp + 4) : Int) - (d (read32 mem (fp + 4))).eip_fn_addr) % 4294967296 ∧
      ((d (read32 mem (fp + 4))).eip_fn_addr ≤ read32 mem (fp + 4) →
        offset = read32 mem (fp + 4) - (d (read32 mem (fp + 4))).eip_fn_addr) := by
  refine ⟨_, (read32 mem (fp + 4) + 4294967296 -
      (d (read32 mem (fp + 4))).eip_fn_addr % 4294967296) % 4294967296,
    mon_backtrace_chain d mem k fps start argc argv tf h, ?_, ?_, ?_⟩
  · rw [← frameLines_eq d mem fp]
    obtain ⟨s, t, hst⟩ := infix_flatMap_of_mem (frameLines d mem) fps fp hfp
    refine ⟨Event.cprintf "Stack backtrace;\n" [] :: s, t, ?_⟩
    rw [← hst]
    simp
  · have := read32_lt mem (fp + 4)
    omega
  · intro hle
    have := read32_lt mem (fp + 4)
    omega

/-- Witness of C9: the first frame of the three-frame chain of `chainMem`. -/
theorem backtrace_frame_report_witness :
    FrameChain chainMem 0x100 [0x100, 0x200, 0x300] ∧ 0x100 ∈ [0x100, 0x200, 0x300] ∧
    ∃ out offset, mon_backtrace noDebugInfo chainMem 0x100
        ([0x100, 0x200, 0x300].length + 1 + 0) 1 ["backtrace"] none = some (out, 0) ∧
      [Event.cprintf "ebp %x eip %x args" [Arg.word 0x100, Arg.word (read32 chainMem (0x100 + 4))],
       Event.cprintf " %08.x" [Arg.word (read32 chainMem (0x100 + 8))],
       Event.cprintf " %08.x" [Arg.word (read32 chainMem (0x100 + 12))],
       Event.cprintf " %08.x" [Arg.word (read32 chainMem (0x100 + 16))],
       Event.cprintf " %08.x" [Arg.word (read32 chainMem (0x100 + 20))],
       Event.cprintf " %08.x" [Arg.word (read32 chainMem (0x100 + 24))],
       Event.cprintf "\n" [],
       Event.cprintf " %s:%d: %.*s+%d\n"
         [Arg.str (noDebugInfo (read32 chainMem (0x100 + 4))).eip_file,
          Arg.word (toU32 (noDebugInfo (read32 chainMem (0x100 + 4))).eip_line),
          Arg.word (toU32 (noDebugInfo (read32 chainMem (0x100 + 4))).eip_fn_namelen),
          Arg.str (noDebugInfo (read32 chainMem (0x100 + 4))).eip_fn_name,
          Arg.word offset]] <:+: out ∧
      (offset : Int) =
        ((read32 chainMem (0x100 + 4) : Int) -
          (noDebugInfo (read32 chainMem (0x100 + 4))).eip_fn_addr) % 4294967296 ∧
      ((noDebugInfo (read32 chainMem (0x100 + 4))).eip_fn_addr ≤ read32 chainMem (0x100 + 4) →
        offset = read32 chainMem (0x100 + 4) -
          (noDebugInfo (read32 chainMem (0x100 + 4))).eip_fn_addr) :=
  ⟨by simp [FrameChain, read32, chainMem], by decide,
   backtrace_frame_report noDebugInfo chainMem 0 [0x100, 0x200, 0x300] 0x100 1 ["backtrace"]
     none 0x100 (by simp [FrameChain, read32, chainMem]) (by decide)⟩

/-- C10: with an argument count other than 3, `mon_showmappings` prints the usage text and
nothing else (no page line, no query of the page-table walker) and returns the status 0, for
every amount of fuel. -/
theorem showmappings_usage (parse : String → Int) (w : Nat → Nat → Option Nat) (fuel : Nat)
    (argc : Int) (argv : List String) (tf : Option Trapframe) (h : argc ≠ 3) :
    ∃ out, mon_showmappings parse w fuel argc argv tf = some (out, 0) ∧
      out = [Event.cprintf "Usage: showmappings begin_addr end_addr\n" []] ∧
      out.filter isPageLine = [] ∧ out.filter isWalk = [] := by
  refine ⟨_, ?_, rfl, by decide, by decide⟩
  unfold mon_showmappings
  rw [if_pos h]

/-- Witness of C10: `showmappings 0x1000`, one address missing. -/
theorem showmappings_usage_witness :
    (2 : Int) ≠ 3 ∧
    ∃ out, mon_showmappings strtol oneMapped 0 2 ["showmappings", "0x1000"] none =
        some (out, 0) ∧
      out = [Event.cprintf "Usage: showmappings begin_addr end_addr\n" []] ∧
      out.filter isPageLine = [] ∧ out.filter isWalk = [] :=
  ⟨by decide, showmappings_usage strtol oneMapped 0 2 ["showmappings", "0x1000"] none (by decide)⟩

/-- C11: whenever they return, `mon_backtrace` and `mon_showmappings` return a non-negative
status, for every argument vector, trap frame, memory and walker; so does `runcmd` on every
line, in particular on the lines whose command is `backtrace` or `showmappings`; and the read
loop of `monitor` is never left by its `break`, whatever lines it reads. -/
theorem monitor_commands_nonneg (K : Kernel) (fuel : Nat) (tf : Option Trapframe) :
    (∀ argc argv out st,
      mon_backtrace K.debuginfo_eip K.mem K.read_ebp fuel argc argv tf = some (out, st) →
        0 ≤ st) ∧
    (∀ argc argv out st,
      mon_showmappings K.strtol K.pgdir_walk fuel argc argv tf = some (out, st) → 0 ≤ st) ∧
    (∀ buf out st, runcmd K fuel buf tf = some (out, st) → 0 ≤ st) ∧
    (∀ print_trapframe lines out brk,
      monitor K print_trapframe fuel tf lines = some (out, brk) → brk = false) := by
  refine ⟨?_, ?_, ?_, ?_⟩
  · intro argc argv out st h
    rw [mon_backtrace_status _ _ _ _ _ _ _ _ _ h]
  · intro argc argv out st h
    rw [mon_showmappings_status _ _ _ _ _ _ _ _ h]
  · intro buf out st h
    rw [runcmd_status K fuel buf tf out st h]
  · intro pt lines out brk h
    unfold monitor at h
    cases hm : monitorLoop K fuel tf lines with
    | none => rw [hm] at h; simp at h
    | some r =>
      rw [hm] at h
      simp only [Option.map_some', Option.some.injEq, Prod.mk.injEq] at h
      obtain ⟨r1, r2⟩ := r
      rw [← h.2]
      exact monitorLoop_no_break K fuel tf lines r1 r2 hm

/-- Witness of C11: on the example kernel the lines `backtrace` and `showmappings 0x1000
0x3000` return, with a non-negative status, and the monitor reading them goes on reading. -/
theorem monitor_commands_nonneg_witness :
    (runcmd exampleKernel 4 "backtrace".toList none).isSome = true ∧
    (∀ out st, runcmd exampleKernel 4 "backtrace".toList none = some (out, st) → 0 ≤ st) ∧
    (runcmd exampleKernel 4 "showmappings 0x1000 0x3000".toList none).isSome = true ∧
    (∀ out st, runcmd exampleKernel 4 "showmappings 0x1000 0x3000".toList none =
      some (out, st) → 0 ≤ st) ∧
    (monitor exampleKernel (fun _ => []) 4 none
      [some "backtrace".toList, some "showmappings 0x1000 0x3000".toList]).isSome = true ∧
    (∀ out brk, monitor exampleKernel (fun _ => []) 4 none
      [some "backtrace".toList, some "showmappings 0x1000 0x3000".toList] = some (out, brk) →
        brk = false) :=
  ⟨by decide, (monitor_commands_nonneg exampleKernel 4 none).2.2.1 _,
   by decide, (monitor_commands_nonneg exampleKernel 4 none).2.2.1 _,
   by decide, (monitor_commands_nonneg exampleKernel 4 none).2.2.2 _ _⟩

/-- C12: `mon_showmappings` only observes the translation structures.  For every input, with
fuel for the pages of the aligned range, it returns; its queries of the page-table walker are
one per page line, at the start address of that page, in the order of the lines, each with
`create = 0`; and for every walker whose non-creating queries leave the translation
structures as they are, the structures after the command are the structures before it. -/
theorem showmappings_observational (parse : String → Int) (w : Nat → Nat → Option Nat)
    (k : Nat) (argc : Int) (argv : List String) (tf : Option Trapframe) :
    ∃ out, mon_showmappings parse w
        (pageCount (boundsOf parse argv).2.1 (boundsOf parse argv).2.2 + 1 + k) argc argv tf =
          some (out, 0) ∧
      out.filter isWalk =
        (List.range (if argc = 3 then
            pageCount (boundsOf parse argv).2.1 (boundsOf parse argv).2.2 else 0)).map
          (fun i : Nat =>
            Event.pgdir_walk (toU32 ((boundsOf parse argv).2.1 + i * PGSIZE)) 0) ∧
      out.filter isPageLine =
        (List.range (if argc = 3 then
            pageCount (boundsOf parse argv).2.1 (boundsOf parse argv).2.2 else 0)).map
          (fun i : Nat =>
            Event.cprintf "%08x--%08x: "
              [Arg.word (toU32 ((boundsOf parse argv).2.1 + i * PGSIZE)),
               Arg.word (toU32 ((boundsOf parse argv).2.1 + i * PGSIZE + PGSIZE))]) ∧
      (∀ va create, Event.pgdir_walk va create ∈ out → create = 0) ∧
      ∀ (PT : Type) (effect : PT → Nat → Nat → PT) (pt : PT),
        (∀ p va, effect p va 0 = p) → ptAfter effect pt out = pt := by
  have key : ∃ out, mon_showmappings parse w
        (pageCount (boundsOf parse argv).2.1 (boundsOf parse argv).2.2 + 1 + k) argc argv tf =
          some (out, 0) ∧
      out.filter isWalk =
        (List.range (if argc = 3 then
            pageCount (boundsOf parse argv).2.1 (boundsOf parse argv).2.2 else 0)).map
          (fun i : Nat =>
            Event.pgdir_walk (toU32 ((boundsOf parse argv).2.1 + i * PGSIZE)) 0) ∧
      out.filter isPageLine =
        (List.range (if argc = 3 then
            pageCount (boundsOf parse argv).2.1 (boundsOf parse argv).2.2 else 0)).map
          (fun i : Nat =>
            Event.cprintf "%08x--%08x: "
              [Arg.word (toU32 ((boundsOf parse argv).2.1 + i * PGSIZE)),
               Arg.word (toU32 ((boundsOf parse argv).2.1 + i * PGSIZE + PGSIZE))]) := by
    by_cases h3 : argc = 3
    · subst h3
      refine ⟨_, mon_showmappings_eq parse w k argv tf _ rfl, ?_, ?_⟩
      · rw [List.filter_append, warningOut_filter_isWalk, if_pos rfl]
        split
        · rename_i hle
          rw [pageCount_of_le _ _ hle]
          rfl
        · rw [pagesOut_filter_isWalk]
          rfl
      · rw [List.filter_append, warningOut_filter_isPageLine, if_pos rfl]
        split
        · rename_i hle
          rw [pageCount_of_le _ _ hle]
          rfl
        · rw [pagesOut_filter_isPageLine]
          rfl
    · refine ⟨[Event.cprintf "Usage: showmappings begin_addr end_addr\n" []], ?_, ?_, ?_⟩
      · unfold mon_showmappings
        rw [if_pos h3]
      · rw [if_neg h3]; rfl
      · rw [if_neg h3]; rfl
  obtain ⟨out, h1, h2, h3⟩ := key
  have hz : ∀ va create, Event.pgdir_walk va create ∈ out → create = 0 := by
    apply walk_mem_of_filter out
      ((List.range (if argc = 3 then
            pageCount (boundsOf parse argv).2.1 (boundsOf parse argv).2.2 else 0)).map
        (fun i : Nat => toU32 ((boundsOf parse argv).2.1 + i * PGSIZE)))
    rw [h2, List.map_map]
    rfl
  exact ⟨out, h1, h2, h3, hz, fun PT effect pt heff => ptAfter_of_create_zero effect heff out pt hz⟩

/-- C13, as stated, fails: in `misalignedMem` the chain goes from `0x100` to `0x202`, which is
not a multiple of 4; the walk does not stop there: a frame is reported for `0x202`, with the
word at `0x206` as return address, and the words at `0x202` to `0x21a` are read. -/
theorem backtrace_reports_misaligned_pointer :
    (0x202 : Nat) % 4 ≠ 0 ∧ read32 misalignedMem 0x100 = 0x202 ∧
    mon_backtrace noDebugInfo misalignedMem 0x100 3 1 ["backtrace"] none =
      some (Event.cprintf "Stack backtrace;\n" [] ::
        [0x100, 0x202].flatMap (frameLines noDebugInfo misalignedMem), 0) ∧
    Event.cprintf "ebp %x eip %x args" [Arg.word 0x202, Arg.word 7] ∈
      Event.cprintf "Stack backtrace;\n" [] ::
        [0x100, 0x202].flatMap (frameLines noDebugInfo misalignedMem) ∧
    backtraceReads misalignedMem 3 0x100 =
      some [0x104, 0x108, 0x10c, 0x110, 0x114, 0x118, 0x100,
            0x206, 0x20a, 0x20e, 0x212, 0x216, 0x21a, 0x202] := by
  decide

/-- C13, amended: `mon_backtrace` does not test the alignment of frame pointers.  When the
chain it walks holds a non-null frame pointer that is not a multiple of 4, a frame is reported
for that pointer like for any other, with the word one word past it as return address, and
the word at the pointer and the six words after it are read; the walk stops at a null frame
pointer only. -/
theorem backtrace_misaligned_frame (d : Nat → Eipdebuginfo) (mem : Nat → Nat) (k : Nat)
    (fps : List Nat) (start : Nat) (argc : Int) (argv : List String) (tf : Option Trapframe)
    (fp : Nat) (h : FrameChain mem start fps) (hfp : fp ∈ fps) (_hmis : fp % 4 ≠ 0) :
    ∃ out reads, mon_backtrace d mem start (fps.length + 1 + k) argc argv tf = some (out, 0) ∧
      Event.cprintf "ebp %x eip %x args" [Arg.word fp, Arg.word (read32 mem (fp + 4))] ∈ out ∧
      backtraceReads mem (fps.length + 1 + k) start = some reads ∧
      ∀ a ∈ frameReads fp, a ∈ reads :=
  ⟨_, _, mon_backtrace_chain d mem k fps start argc argv tf h,
    frameLine_mem_of_chain d mem fps fp hfp, backtraceReads_chain mem k fps start h,
    fun a ha => frameReads_mem_of_chain fps fp a hfp ha⟩

/-- Witness of C13, amended: the misaligned second frame `0x202` of `misalignedMem`. -/
theorem backtrace_misaligned_frame_witness :
    FrameChain misalignedMem 0x100 [0x100, 0x202] ∧ 0x202 ∈ [0x100, 0x202] ∧
    (0x202 : Nat) % 4 ≠ 0 ∧
    ∃ out reads, mon_backtrace noDebugInfo misalignedMem 0x100 ([0x100, 0x202].length + 1 + 0)
        1 ["backtrace"] none = some (out, 0) ∧
      Event.cprintf "ebp %x eip %x args"
        [Arg.word 0x202, Arg.word (read32 misalignedMem (0x202 + 4))] ∈ out ∧
      backtraceReads misalignedMem ([0x100, 0x202].length + 1 + 0) 0x100 = some reads ∧
      ∀ a ∈ frameReads 0x202, a ∈ reads :=
  ⟨by simp [FrameChain, read32, misalignedMem], by decide, by decide,
   backtrace_misaligned_frame noDebugInfo misalignedMem 0 [0x100, 0x202] 0x100 1 ["backtrace"]
     none 0x202 (by simp [FrameChain, read32, misalignedMem]) (by decide) (by decide)⟩

/-- C14, as stated, fails: in `cyclicMem` the word at the frame pointer `0x100` is `0x100`
again, and on that memory `mon_backtrace` returns with no amount of fuel: the loop has no
iteration cap. -/
theorem backtrace_cyclic_chain_diverges :
    read32 cyclicMem 0x100 = 0x100 ∧
    ¬ ∃ fuel, (mon_backtrace noDebugInfo cyclicMem 0x100 fuel 1 ["backtrace"] none).isSome
      = true := by
  refine ⟨by decide, ?_⟩
  rintro ⟨fuel, h⟩
  unfold mon_backtrace at h
  rw [backtraceLoop_cyclic noDebugInfo cyclicMem 0x100 (by decide) (by decide) fuel] at h
  simp at h

/-- C14, amended: `mon_backtrace` returns exactly when the frame-pointer chain from its
starting frame pointer reaches a null pointer.  It then reports one frame per pointer of the
chain, however long the chain is: a run cut after as many iterations as the chain has
pointers, or fewer, has not returned.  There is no cap on the number of iterations. -/
theorem backtrace_returns_iff_chain (d : Nat → Eipdebuginfo) (mem : Nat → Nat) (start : Nat)
    (argc : Int) (argv : List String) (tf : Option Trapframe) :
    ((∃ fuel, (mon_backtrace d mem start fuel argc argv tf).isSome = true) ↔
      ∃ fps, FrameChain mem start fps) ∧
    (∀ fps k, FrameChain mem start fps →
      ∃ out, mon_backtrace d mem start (fps.length + 1 + k) argc argv tf = some (out, 0) ∧
        (out.filter isFrameLine).length = fps.length) ∧
    (∀ fps fuel, FrameChain mem start fps → fuel ≤ fps.length →
      mon_backtrace d mem start fuel argc argv tf = none) := by
  refine ⟨⟨?_, ?_⟩, ?_, ?_⟩
  · rintro ⟨fuel, h⟩
    unfold mon_backtrace at h
    cases hl : backtraceLoop d mem fuel start with
    | none => rw [hl] at h; simp at h
    | some o =>
      obtain ⟨fps, hch, _⟩ := chain_of_backtraceLoop d mem fuel start o hl
      exact ⟨fps, hch⟩
  · rintro ⟨fps, hch⟩
    refine ⟨fps.length + 1 + 0, ?_⟩
    rw [mon_backtrace_chain d mem 0 fps start argc argv tf hch]
    rfl
  · intro fps k hch
    refine ⟨_, mon_backtrace_chain d mem k fps start argc argv tf hch, ?_⟩
    have hh : isFrameLine (Event.cprintf "Stack backtrace;\n" []) = false := by decide
    rw [List.filter_cons_of_neg (by simp [hh]), List.filter_flatMap]
    simp only [frameLines_filter]
    induction fps generalizing start with
    | nil => rfl
    | cons a l ih =>
      rw [List.flatMap_cons, List.length_append, ih (read32 mem a) hch.2.2]
      simp
      omega
  · intro fps fuel hch hf
    unfold mon_backtrace
    rw [backtraceLoop_short d mem fps fuel start hch hf]
    rfl

/-- C15: in the report lines of `mon_showmappings` the two bounds of a page range and the
frame address, and in those of `mon_backtrace` the argument words, are printed as exactly 8
hexadecimal digits, zero-padded, for every 32-bit value.  The frame pointer and the return
address of a backtrace line are printed with `%x`, without padding: the frame pointer `0x100`
with the return address `0x5` is printed as `ebp 100 eip 5 args`. -/
theorem backtrace_frame_pointer_unpadded :
    (∀ a b, a < 4294967296 → b < 4294967296 →
      vprintfmt "%08x--%08x: ".toList none [Arg.word a, Arg.word b] =
        some (hexFixed 8 a ++ ("--".toList ++ (hexFixed 8 b ++ ": ".toList)))) ∧
    (∀ v, v < 4294967296 →
      vprintfmt "page %08x ".toList none [Arg.word v] =
        some ("page ".toList ++ (hexFixed 8 v ++ " ".toList))) ∧
    (∀ v, v < 4294967296 →
      vprintfmt " %08.x".toList none [Arg.word v] = some (' ' :: hexFixed 8 v)) ∧
    (∀ v, (hexFixed 8 v).length = 8) ∧
    vprintfmt "ebp %x eip %x args".toList none [Arg.word 0x100, Arg.word 0x5] =
      some "ebp 100 eip 5 args".toList ∧
    (render (frameLines noDebugInfo chainMem 0x100)).map String.mk =
      some ("ebp 100 eip 5 args 00000000 00000000 00000000 00000000 00000000\n" ++
        " <unknown>:0: <unknown>+0\n") := by
  refine ⟨?_, ?_, ?_, hexFixed_length 8, by decide, by decide⟩
  · intro a b ha hb
    rw [vprintfmt_range, printnum_word a ha, printnum_word b hb]
  · intro v hv
    rw [vprintfmt_page, printnum_word v hv]
  · intro v hv
    rw [vprintfmt_arg, printnum_word v hv, List.append_nil]

/-- C16, as stated, fails: take a stack mapped at `[0x1000, 0x2000)` and a frame pointer
`0x1ff0`, four words below its top.  `mon_backtrace` returns on it, and the words it reads
include the three argument slots at `0x2000`, `0x2004` and `0x2008`, above the top of the
stack: no read is preceded by a check. -/
theorem backtrace_reads_above_stack_top :
    (0x2000 - 0x1ff0) / 4 < 7 ∧
    mon_backtrace noDebugInfo zeroMem 0x1ff0 2 1 ["backtrace"] none =
      some (Event.cprintf "Stack backtrace;\n" [] :: frameLines noDebugInfo zeroMem 0x1ff0, 0) ∧
    backtraceReads zeroMem 2 0x1ff0 =
      some [0x1ff4, 0x1ff8, 0x1ffc, 0x2000, 0x2004, 0x2008, 0x1ff0] ∧
    ¬ ∀ a ∈ [0x1ff4, 0x1ff8, 0x1ffc, 0x2000, 0x2004, 0x2008, 0x1ff0],
        0x1000 ≤ a ∧ a + 4 ≤ 0x2000 := by
  decide

/-- C16, amended: `mon_backtrace` reads the return address and the five argument slots of
every frame it visits without any check against a stack extent: for every frame pointer `fp`
of the chain and every `i` from 1 to 6, the word at `fp + 4 * i` is read, wherever that
address lies. -/
theorem backtrace_reads_unchecked (d : Nat → Eipdebuginfo) (mem : Nat → Nat) (k : Nat)
    (fps : List Nat) (start : Nat) (argc : Int) (argv : List String) (tf : Option Trapframe)
    (fp i : Nat) (h : FrameChain mem start fps) (hfp : fp ∈ fps) (hi1 : 1 ≤ i) (hi6 : i ≤ 6) :
    ∃ out reads, mon_backtrace d mem start (fps.length + 1 + k) argc argv tf = some (out, 0) ∧
      backtraceReads mem (fps.length + 1 + k) start = some reads ∧
      (fp + 4 * i) % 4294967296 ∈ reads := by
  refine ⟨_, _, mon_backtrace_chain d mem k fps start argc argv tf h,
    backtraceReads_chain mem k fps start h, ?_⟩
  apply frameReads_mem_of_chain fps fp _ hfp
  unfold frameReads
  rw [List.mem_append]
  left
  rw [List.mem_map]
  exact ⟨i, by rw [List.mem_range']; exact ⟨i - 1, by omega, by omega⟩, rfl⟩

/-- Witness of C16, amended: the fifth argument slot of the frame `0x1ff0`, at `0x2008`. -/
theorem backtrace_reads_unchecked_witness :
    FrameChain zeroMem 0x1ff0 [0x1ff0] ∧ 0x1ff0 ∈ [0x1ff0] ∧ 1 ≤ 6 ∧ 6 ≤ 6 ∧
    ∃ out reads, mon_backtrace noDebugInfo zeroMem 0x1ff0 ([0x1ff0].length + 1 + 0) 1
        ["backtrace"] none = some (out, 0) ∧
      backtraceReads zeroMem ([0x1ff0].length + 1 + 0) 0x1ff0 = some reads ∧
      (0x1ff0 + 4 * 6) % 4294967296 ∈ reads :=
  ⟨by simp [FrameChain, read32, zeroMem], by decide, by decide, by decide,
   backtrace_reads_unchecked noDebugInfo zeroMem 0 [0x1ff0] 0x1ff0 1 ["backtrace"] none
     0x1ff0 6 (by simp [FrameChain, read32, zeroMem]) (by decide) (by decide) (by decide)⟩

/-- C17, as stated, fails: called on the stack of `chainMem` with `ebp = 0x100` and a trap
frame whose saved frame pointer is `0x200`, `mon_backtrace` does what it does without a trap
frame: the frames it reports are `0x100`, `0x200`, `0x300`, from its own frame pointer on,
not from the one saved in the trap frame. -/
theorem backtrace_ignores_trapframe :
    mon_backtrace noDebugInfo chainMem 0x100 4 1 ["backtrace"] (some ⟨0x200⟩) =
      mon_backtrace noDebugInfo chainMem 0x100 4 1 ["backtrace"] none ∧
    mon_backtrace noDebugInfo chainMem 0x100 4 1 ["backtrace"] (some ⟨0x200⟩) =
      some (Event.cprintf "Stack backtrace;\n" [] ::
        [0x100, 0x200, 0x300].flatMap (frameLines noDebugInfo chainMem), 0) ∧
    (Event.cprintf "Stack backtrace;\n" [] ::
        [0x100, 0x200, 0x300].flatMap (frameLines noDebugInfo chainMem)).filter isFrameLine =
      [Event.cprintf "ebp %x eip %x args" [Arg.word 0x100, Arg.word 5],
       Event.cprintf "ebp %x eip %x args" [Arg.word 0x200, Arg.word 0],
       Event.cprintf "ebp %x eip %x args" [Arg.word 0x300, Arg.word 0]] := by
  decide

/-- C17, amended: `mon_backtrace` starts the walk at its own current frame pointer, the value
`read_ebp()` returns, whether the trap frame is null or not: the trap frame is not used, and
on a chain from that frame pointer the first frame reported is the first of the chain. -/
theorem backtrace_starts_at_read_ebp (d : Nat → Eipdebuginfo) (mem : Nat → Nat) (k : Nat)
    (fps : List Nat) (read_ebp : Nat) (argc : Int) (argv : List String)
    (tf : Option Trapframe) (h : FrameChain mem read_ebp fps) :
    mon_backtrace d mem read_ebp (fps.length + 1 + k) argc argv tf =
      mon_backtrace d mem read_ebp (fps.length + 1 + k) argc argv none ∧
    ∃ out, mon_backtrace d mem read_ebp (fps.length + 1 + k) argc argv tf = some (out, 0) ∧
      (out.filter isFrameLine).head? =
        fps.head?.map (fun fp =>
          Event.cprintf "ebp %x eip %x args" [Arg.word fp, Arg.word (read32 mem (fp + 4))]) ∧
      fps.head? = if read_ebp = 0 then none else some read_ebp := by
  refine ⟨rfl, _, mon_backtrace_chain d mem k fps read_ebp argc argv tf h, ?_, ?_⟩
  · have hh : isFrameLine (Event.cprintf "Stack backtrace;\n" []) = false := by decide
    rw [List.filter_cons_of_neg (by simp [hh])]
    cases fps with
    | nil => rfl
    | cons a l =>
      rw [List.flatMap_cons, List.filter_append, frameLines_filter]
      rfl
  · cases fps with
    | nil =>
      simp only [FrameChain] at h
      simp [h]
    | cons a l =>
      obtain ⟨h1, h2, _⟩ := h
      subst h1
      simp [h2]

/-- Witness of C17, amended: the stack of `chainMem` from `0x100`, with a trap frame whose
saved frame pointer is `0x200`. -/
theorem backtrace_starts_at_read_ebp_witness :
    FrameChain chainMem 0x100 [0x100, 0x200, 0x300] ∧
    (mon_backtrace noDebugInfo chainMem 0x100 ([0x100, 0x200, 0x300].length + 1 + 0) 1
        ["backtrace"] (some ⟨0x200⟩) =
      mon_backtrace noDebugInfo chainMem 0x100 ([0x100, 0x200, 0x300].length + 1 + 0) 1
        ["backtrace"] none ∧
    ∃ out, mon_backtrace noDebugInfo chainMem 0x100 ([0x100, 0x200, 0x300].length + 1 + 0) 1
        ["backtrace"] (some ⟨0x200⟩) = some (out, 0) ∧
      (out.filter isFrameLine).head? =
        [0x100, 0x200, 0x300].head?.map (fun fp =>
          Event.cprintf "ebp %x eip %x args"
            [Arg.word fp, Arg.word (read32 chainMem (fp + 4))]) ∧
      [0x100, 0x200, 0x300].head? = if 0x100 = 0 then none else some 0x100) :=
  ⟨by simp [FrameChain, read32, chainMem],
   backtrace_starts_at_read_ebp noDebugInfo chainMem 0 [0x100, 0x200, 0x300] 0x100 1
     ["backtrace"] (some ⟨0x200⟩) (by simp [FrameChain, read32, chainMem])⟩

/-- C18, as stated, fails: for `showmappings 0x1001 0x2500` the bounds are moved up, to
`0x2000` and `0x3000`: the output is the warning and the one page line of `[0x2000, 0x3000)`,
and the page `[0x1000, 0x2000)` that contains the supplied begin address `0x1001` is not
reported. -/
theorem showmappings_unaligned_begin_page_skipped :
    mon_showmappings strtol oneMapped 2 3 ["showmappings", "0x1001", "0x2500"] none =
      some ([Event.cprintf "Warning: not aligned\n the address will aligned automaticly\n" [],
             Event.cprintf "%08x--%08x: " [Arg.word 0x2000, Arg.word 0x3000],
             Event.pgdir_walk 0x2000 0,
             Event.cprintf "not mapped\n" []], 0) ∧
    Event.cprintf "%08x--%08x: " [Arg.word 0x1000, Arg.word 0x2000] ∉
      [Event.cprintf "Warning: not aligned\n the address will aligned automaticly\n" [],
       Event.cprintf "%08x--%08x: " [Arg.word 0x2000, Arg.word 0x3000],
       Event.pgdir_walk 0x2000 0,
       Event.cprintf "not mapped\n" []] := by
  decide

/-- C18, amended: when the begin bound supplied to `mon_showmappings` is not page-aligned, the
warning is printed first and `begin` and `end` are aligned upward, each to the next page
boundary (as a 32-bit address), before the range is validated and walked; the page that
contains the supplied begin address is then not among the pages reported. -/
theorem showmappings_rounds_up (parse : String → Int) (w : Nat → Nat → Option Nat) (k : Nat)
    (argv : List String) (tf : Option Trapframe)
    (hb : ¬ toLong (parse (argv.getD 1 "")) % 4096 = 0) :
    ∃ out, mon_showmappings parse w
        (pageCount (boundsOf parse argv).2.1 (boundsOf parse argv).2.2 + 1 + k) 3 argv tf =
          some (out, 0) ∧
      out.head? =
        some (Event.cprintf "Warning: not aligned\n the address will aligned automaticly\n" []) ∧
      (boundsOf parse argv).2.1 = ROUNDUP (toLong (parse (argv.getD 1 ""))) PGSIZE ∧
      (boundsOf parse argv).2.2 = ROUNDUP (toLong (parse (argv.getD 2 ""))) PGSIZE ∧
      toU32 (ROUNDUP (toLong (parse (argv.getD 1 ""))) PGSIZE) =
        ((toU32 (toLong (parse (argv.getD 1 ""))) + 4095) / 4096 * 4096) % 4294967296 ∧
      toU32 (ROUNDUP (toLong (parse (argv.getD 2 ""))) PGSIZE) =
        ((toU32 (toLong (parse (argv.getD 2 ""))) + 4095) / 4096 * 4096) % 4294967296 ∧
      ∀ x, Event.cprintf "%08x--%08x: "
          [Arg.word (toU32 (toLong (parse (argv.getD 1 ""))) / 4096 * 4096), x] ∉ out := by
  have hbo := boundsOf_unaligned parse argv (fun h => hb h.1)
  obtain ⟨out, h1, h2, h3⟩ := mon_showmappings_pageLines parse w k argv tf
  refine ⟨out, h1, ?_, ?_, ?_, (ROUNDUP_next_boundary _).1, (ROUNDUP_next_boundary _).1, ?_⟩
  · rw [h2, hbo]
    rfl
  · rw [hbo]
  · rw [hbo]
  · intro x hx
    have hx' : Event.cprintf "%08x--%08x: "
        [Arg.word (toU32 (toLong (parse (argv.getD 1 ""))) / 4096 * 4096), x] ∈
          out.filter isPageLine := by
      rw [List.mem_filter]
      exact ⟨hx, rfl⟩
    rw [h3, List.mem_map] at hx'
    obtain ⟨i, hi, heq⟩ := hx'
    rw [List.mem_range] at hi
    injection heq with _ heq
    injection heq with heq _
    injection heq with heq
    have hfb := toLong_fits (parse (argv.getD 1 ""))
    have hfe := toLong_fits (parse (argv.getD 2 ""))
    have hs := alignBounds_spec _ _ hfb.1 hfb.2 hfe.1 hfe.2
    have hB : (boundsOf parse argv).2.1 = ROUNDUP (toLong (parse (argv.getD 1 ""))) PGSIZE := by
      rw [hbo]
    change (boundsOf parse argv).2.1 % 4096 = 0 ∧ (boundsOf parse argv).2.2 % 4096 = 0 ∧
      -2147483648 ≤ (boundsOf parse argv).2.1 ∧ (boundsOf parse argv).2.2 < 2147483648 ∧ _ at hs
    obtain ⟨hs1, hs2, hs3, hs4, _⟩ := hs
    generalize (boundsOf parse argv).2.1 = B at *
    generalize (boundsOf parse argv).2.2 = E at *
    generalize toLong (parse (argv.getD 1 "")) = b at *
    simp only [ROUNDUP, ROUNDDOWN, toLong, toU32, PGSIZE, pageCount] at hB heq hi
    push_cast at hi heq
    omega

/-- Witness of C18, amended: `showmappings 0x1001 0x2500`. -/
theorem showmappings_rounds_up_witness :
    ¬ toLong (strtol (["showmappings", "0x1001", "0x2500"].getD 1 "")) % 4096 = 0 ∧
    ∃ out, mon_showmappings strtol oneMapped
        (pageCount (boundsOf strtol ["showmappings", "0x1001", "0x2500"]).2.1
          (boundsOf strtol ["showmappings", "0x1001", "0x2500"]).2.2 + 1 + 0) 3
        ["showmappings", "0x1001", "0x2500"] none = some (out, 0) ∧
      out.head? =
        some (Event.cprintf "Warning: not aligned\n the address will aligned automaticly\n" []) ∧
      (boundsOf strtol ["showmappings", "0x1001", "0x2500"]).2.1 =
        ROUNDUP (toLong (strtol (["showmappings", "0x1001", "0x2500"].getD 1 ""))) PGSIZE ∧
      (boundsOf strtol ["showmappings", "0x1001", "0x2500"]).2.2 =
        ROUNDUP (toLong (strtol (["showmappings", "0x1001", "0x2500"].getD 2 ""))) PGSIZE ∧
      toU32 (ROUNDUP (toLong (strtol (["showmappings", "0x1001", "0x2500"].getD 1 ""))) PGSIZE) =
        ((toU32 (toLong (strtol (["showmappings", "0x1001", "0x2500"].getD 1 ""))) + 4095)
          / 4096 * 4096) % 4294967296 ∧
      toU32 (ROUNDUP (toLong (strtol (["showmappings", "0x1001", "0x2500"].getD 2 ""))) PGSIZE) =
        ((toU32 (toLong (strtol (["showmappings", "0x1001", "0x2500"].getD 2 ""))) + 4095)
          / 4096 * 4096) % 4294967296 ∧
      ∀ x, Event.cprintf "%08x--%08x: "
          [Arg.word (toU32 (toLong (strtol (["showmappings", "0x1001", "0x2500"].getD 1 "")))
            / 4096 * 4096), x] ∉ out :=
  ⟨by decide,
   showmappings_rounds_up strtol oneMapped 0 ["showmappings", "0x1001", "0x2500"] none
     (by decide)⟩

/-- C19: for a command line (a buffer without NUL characters) with at most 15 maximal runs
of non-whitespace characters, the parser of `runcmd` returns exactly these runs as `argv`, in
the order of the line, and `argc` is their number.  An empty or all-whitespace line has no
run, and `runcmd` returns 0 on it without any output.  Otherwise, if the first run is the name
of an entry of the table, `runcmd` is the call of that command with this `argc` and `argv`;
if it is the name of no entry, `runcmd` prints `Unknown command` and returns 0. -/
theorem runcmd_parses_and_dispatches (K : Kernel) (fuel : Nat) (line : List Char)
    (tf : Option Trapframe) (hnul : '\x00' ∉ line) (h15 : (wordsOf line).length ≤ 15) :
    runcmdScan line none [] = some (wordsOf line) ∧
    ((∀ c ∈ line, isWhitespace c = true) → wordsOf line = []) ∧
    (wordsOf line = [] → runcmd K fuel line tf = some ([], 0)) ∧
    (∀ c ∈ commands, (wordsOf line).head? = some c.name →
      runcmd K fuel line tf = c.func K fuel (wordsOf line).length (wordsOf line) tf) ∧
    (wordsOf line ≠ [] → (∀ c ∈ commands, (wordsOf line).head? ≠ some c.name) →
      runcmd K fuel line tf =
        some ([Event.cprintf "Unknown command '%s'\n"
          [Arg.str ((wordsOf line).getD 0 "")]], 0)) := by
  have hs : runcmdScan line none [] = some (wordsOf line) := by
    rw [runcmdScan_eq line hnul, if_pos h15]
  refine ⟨hs, wordsOf_all_ws line, ?_, ?_, ?_⟩
  · intro he
    rw [runcmd_of_scan K fuel line tf _ hs, he]
    rfl
  · intro c hc hh
    rw [runcmd_of_scan K fuel line tf _ hs]
    cases hw : wordsOf line with
    | nil => rw [hw] at hh; simp at hh
    | cons a rest =>
      rw [hw] at hh
      simp only [List.head?_cons, Option.some.injEq] at hh
      subst hh
      simp only [commands, List.mem_cons, List.mem_singleton, List.not_mem_nil, or_false] at hc
      rcases hc with rfl | rfl | rfl | rfl <;> simp [commands, List.find?]
  · intro hne hno
    rw [runcmd_of_scan K fuel line tf _ hs]
    have hl : ¬ (wordsOf line).length = 0 := by
      intro e
      exact hne (List.length_eq_zero.1 e)
    rw [if_neg hl]
    have hf : commands.find? (fun c => decide (c.name = (wordsOf line).getD 0 "")) = none := by
      rw [List.find?_eq_none]
      intro c hc
      have := hno c hc
      cases hw : wordsOf line with
      | nil => exact absurd hw hne
      | cons a rest =>
        rw [hw] at this
        simp only [List.head?_cons, ne_eq, Option.some.injEq] at this
        simp only [List.getD_cons_zero, decide_eq_true_eq]
        exact fun e => this e.symm
    rw [hf]

/-- Witness of C19: the line `showmappings 0x1000 0x3000` with blanks and a tab around its
three runs, dispatched to the command `showmappings`. -/
theorem runcmd_parses_and_dispatches_witness :
    '\x00' ∉ "  showmappings 0x1000\t0x3000 ".toList ∧
    (wordsOf "  showmappings 0x1000\t0x3000 ".toList).length ≤ 15 ∧
    wordsOf "  showmappings 0x1000\t0x3000 ".toList = ["showmappings", "0x1000", "0x3000"] ∧
    runcmdScan "  showmappings 0x1000\t0x3000 ".toList none [] =
      some (wordsOf "  showmappings 0x1000\t0x3000 ".toList) ∧
    runcmd exampleKernel 3 "  showmappings 0x1000\t0x3000 ".toList none =
      mon_showmappings strtol oneMapped 3 3 ["showmappings", "0x1000", "0x3000"] none :=
  ⟨by decide, by decide, by decide,
   (runcmd_parses_and_dispatches exampleKernel 3 "  showmappings 0x1000\t0x3000 ".toList none
     (by decide) (by decide)).1,
   by decide⟩

